import Mathlib

/-!
CG2900 HCI UART line discipline (`drivers/staging/cg2900/bluetooth/hci_ldisc.c`)

A shallow embedding of the line discipline: the protocol registry, the
session control plane (`HCIUARTSETPROTO`), the TX drain engine
(`cg2900_hci_uart_tx_wakeup`), the RX dispatcher (`hci_uart_tty_receive`) and
the HCI device hooks (`hci_uart_flush`, `hci_uart_send_frame`, ...).

Modelling conventions
* C `int` / `unsigned int` values are `Int` / `Nat`; conversions between them
  are written out with `as_int` and `as_uint` (reduction modulo `2^32`).
* Pointers are modelled by `Option` (or a `Bool` when the pointee is the one
  object of that kind in the `World`); a `NULL` dereference makes the function
  return `none`.
* The hooks of a protocol (`struct hci_uart_proto`) act on the protocol's
  private data `hu->priv`, of an arbitrary type `P`.
* The low-level tty driver behind `tty->ops` has a state of an arbitrary type
  `T`.  Its `write` returns the C return value, whether the driver re-entered
  `cg2900_hci_uart_tx_wakeup` during the call, and the new driver state.
* Calls of protocol hooks and of tty / HCI core functions are recorded, in
  order, in `World.trace`.
* Concurrent executions of `cg2900_hci_uart_tx_wakeup` are modelled by
  `drain_step`: every bit operation on `hu->tx_state` is one atomic step of a
  numbered execution, and a schedule (a list of execution numbers) picks the
  execution that moves.
-/

namespace CG2900

/-! ## Machine integers and errno values -/

/-- Conversion of an integer value to C `int` (32 bit, two's complement). -/
def as_int (z : Int) : Int := (z + 2147483648) % 4294967296 - 2147483648

/-- Conversion of an integer value to C `unsigned int` (32 bit). -/
def as_uint (z : Int) : Nat := (z % 4294967296).toNat

/-- The C statement `c += d` on a `__u32` counter `c`, for an `int` `d`. -/
def u32_add (c : Nat) (d : Int) : Nat := as_uint ((c : Int) + d)

def EBADF : Int := 9
def ENOMEM : Int := 12
def EBUSY : Int := 16
def EEXIST : Int := 17
def ENODEV : Int := 19
def EINVAL : Int := 22
def ENFILE : Int := 23
def ENOMSG : Int := 42
def EUNATCH : Int := 49
def EPROTONOSUPPORT : Int := 93
def EOPNOTSUPP : Int := 95

def HCI_COMMAND_PKT : Nat := 1
def HCI_ACLDATA_PKT : Nat := 2
def HCI_SCODATA_PKT : Nat := 3

/-! ## Data model -/

/-- A socket buffer: `skb->data` (its length is `skb->len`), the packet type
`bt_cb(skb)->pkt_type`, and whether `skb->dev` points to the HCI device
(`true`) or is `NULL` (`false`). -/
structure sk_buff where
  data : List Nat
  pkt_type : Nat
  dev : Bool
deriving DecidableEq, Repr

/-- The field `skb->len`. -/
def sk_buff.len (skb : sk_buff) : Nat := skb.data.length

/-- Kernel `skb_pull(skb, len)`: the argument is converted to `unsigned int`;
when it exceeds `skb->len` nothing is removed, otherwise the first `len`
bytes are removed. -/
def skb_pull (skb : sk_buff) (len : Int) : sk_buff :=
  if as_uint len > skb.len then skb else { skb with data := skb.data.drop (as_uint len) }

/-- The counters of `hdev->stat` that this file updates. -/
structure hci_dev_stats where
  cmd_tx : Nat
  acl_tx : Nat
  sco_tx : Nat
  byte_rx : Nat
  byte_tx : Nat
deriving DecidableEq, Repr

/-- The fields of `struct hci_dev` that this file touches.  `open_`, `close`,
`flush`, `send` say whether the hook pointer is set; `registered` and `freed`
record `hci_register_dev` / `hci_unregister_dev` / `hci_free_dev`. -/
structure hci_dev where
  id : Int
  flags_HCI_RUNNING : Bool
  quirks_NO_RESET : Bool
  quirks_RAW_DEVICE : Bool
  stat : hci_dev_stats
  open_ : Bool
  close : Bool
  flush : Bool
  send : Bool
  registered : Bool
  freed : Bool
deriving DecidableEq, Repr

/-- A protocol implementation, `struct hci_uart_proto`.  The hooks take the
private data `hu->priv` and give the new private data (and the C result where
the line discipline reads it). -/
structure hci_uart_proto (P : Type) where
  id : Nat
  open_ : P → Int × P
  close : P → P
  flush : P → P
  recv : P → List Nat → Int → P
  enqueue : P → sk_buff → P
  dequeue : P → Option sk_buff × P
  send_callback : P → P
  register_hci_dev : Bool

/-- The session object, `struct hci_uart`.  `tty` says whether `hu->tty`
points to the channel of the world (`true`) or is `NULL`. -/
structure hci_uart (P : Type) where
  tty : Bool
  hdev : Option hci_dev
  flags_PROTO_SET : Bool
  hdev_flags : Nat
  proto : Option (hci_uart_proto P)
  priv : P
  tx_skb : Option sk_buff
  tx_state_SENDING : Bool
  tx_state_TX_WAKEUP : Bool
  fd : Option Nat

/-- The driver operations reached through `tty->ops` and the tty core. -/
structure tty_operations (T : Type) where
  write : Option (T → List Nat → Int × Bool × T)
  flush_buffer : T → T
  ldisc_flush : T → T
  unthrottle : T → T

/-- The channel, `struct tty_struct`.  `disc_data` says whether
`tty->disc_data` points to the session of the world or is `NULL`. -/
structure tty_struct (T : Type) where
  ops : tty_operations T
  driver : T
  disc_data : Bool
  flags_DO_WRITE_WAKEUP : Bool
  receive_room : Nat
  ldisc_flush_buffer : Bool

/-- Calls that leave the line discipline, in the order they are made. -/
inductive Event where
  | proto_open (id : Nat)
  | proto_close (id : Nat)
  | proto_flush (id : Nat)
  | proto_recv (id : Nat) (data : List Nat) (count : Int)
  | proto_enqueue (id : Nat) (skb : sk_buff)
  | proto_dequeue (id : Nat)
  | proto_send_callback (id : Nat)
  | tty_write (data : List Nat) (ret : Int)
  | tty_unthrottle
  | tty_ldisc_flush
  | tty_driver_flush_buffer
  | ldisc_flush_buffer
  | hci_alloc_dev
  | hci_register_dev
  | hci_unregister_dev
  | hci_free_dev
deriving DecidableEq, Repr

/-- What the file gets from outside: constants of `hci_uart.h`, the module
parameter `reset`, and the results of the kernel calls it makes. -/
structure Env where
  HCI_UART_MAX_PROTO : Nat
  HCI_UART_RAW_DEVICE : Nat
  reset : Bool
  kzalloc_ok : Bool
  hci_alloc_dev_ok : Bool
  hci_register_dev_ret : Int
  n_tty_ioctl_helper_ret : Int

/-- The table `hup[HCI_UART_MAX_PROTO]`. -/
abbrev Registry (P : Type) := Nat → Option (hci_uart_proto P)

/-- One channel, the session allocated for it and the protocol table. -/
structure World (T P : Type) where
  hup : Registry P
  tty : tty_struct T
  hu : hci_uart P
  trace : List Event

/-! ## Protocol registry -/

/-- Source: `cg2900_hci_uart_register_proto`. -/
def cg2900_hci_uart_register_proto {P : Type} (MAX : Nat) (hup : Registry P)
    (p : hci_uart_proto P) : Int × Registry P :=
  if p.id ≥ MAX then (-EINVAL, hup)
  else if (hup p.id).isSome then (-EEXIST, hup)
  else (0, fun i => if i = p.id then some p else hup i)

/-- Source: `cg2900_hci_uart_unregister_proto`. -/
def cg2900_hci_uart_unregister_proto {P : Type} (MAX : Nat) (hup : Registry P)
    (p : hci_uart_proto P) : Int × Registry P :=
  if p.id ≥ MAX then (-EINVAL, hup)
  else if (hup p.id).isNone then (-EINVAL, hup)
  else (0, fun i => if i = p.id then none else hup i)

/-- Source: `hci_uart_get_proto`. -/
def hci_uart_get_proto {P : Type} (MAX : Nat) (hup : Registry P) (id : Nat) :
    Option (hci_uart_proto P) :=
  if id ≥ MAX then none else hup id

/-! ## Calls into the tty core and the HCI core -/

section Model

variable {T P : Type}

/-- Kernel `tty_driver_flush_buffer(tty)`. -/
def tty_driver_flush_buffer (w : World T P) : World T P :=
  { w with tty.driver := w.tty.ops.flush_buffer w.tty.driver,
           trace := w.trace ++ [Event.tty_driver_flush_buffer] }

/-- Kernel `tty_ldisc_flush(tty)`. -/
def tty_ldisc_flush (w : World T P) : World T P :=
  { w with tty.driver := w.tty.ops.ldisc_flush w.tty.driver,
           trace := w.trace ++ [Event.tty_ldisc_flush] }

/-- Kernel `tty_unthrottle(tty)`. -/
def tty_unthrottle (w : World T P) : World T P :=
  { w with tty.driver := w.tty.ops.unthrottle w.tty.driver,
           trace := w.trace ++ [Event.tty_unthrottle] }

/-- Kernel `hci_unregister_dev(hdev)` on the device of the session. -/
def hci_unregister_dev (w : World T P) : World T P :=
  { w with hu.hdev := w.hu.hdev.map (fun hdev => { hdev with registered := false }),
           trace := w.trace ++ [Event.hci_unregister_dev] }

/-- Kernel `hci_free_dev(hdev)` on the device of the session. -/
def hci_free_dev (w : World T P) : World T P :=
  { w with hu.hdev := w.hu.hdev.map (fun hdev => { hdev with freed := true }),
           trace := w.trace ++ [Event.hci_free_dev] }

/-! ## TX drain engine -/

/-- Source: `hci_uart_tx_complete`. -/
def hci_uart_tx_complete (hu : hci_uart P) (pkt_type : Nat) : hci_uart P :=
  match hu.hdev with
  | none => hu
  | some hdev =>
    if pkt_type = HCI_COMMAND_PKT then
      { hu with hdev := some { hdev with stat.cmd_tx := u32_add hdev.stat.cmd_tx 1 } }
    else if pkt_type = HCI_ACLDATA_PKT then
      { hu with hdev := some { hdev with stat.acl_tx := u32_add hdev.stat.acl_tx 1 } }
    else if pkt_type = HCI_SCODATA_PKT then
      { hu with hdev := some { hdev with stat.sco_tx := u32_add hdev.stat.sco_tx 1 } }
    else hu

/-- Source: `hci_uart_dequeue`.  `none` is the dereference of a `NULL`
`hu->proto`. -/
def hci_uart_dequeue (w : World T P) : Option (Option sk_buff × World T P) :=
  match w.hu.tx_skb with
  | none =>
    match w.hu.proto with
    | none => none
    | some p =>
      let r := p.dequeue w.hu.priv
      some (r.1, { w with hu.priv := r.2, trace := w.trace ++ [Event.proto_dequeue p.id] })
  | some skb => some (some skb, { w with hu.tx_skb := none })

/-- The body of the `while` loop of `cg2900_hci_uart_tx_wakeup` for the frame
`skb` that `hci_uart_dequeue` gave.  The flag of the result is `true` when the
frame was written whole and the loop goes on, `false` on the `break` after a
write that left bytes in the frame.  `none` is a `NULL` dereference. -/
def tx_body (w1 : World T P) (skb : sk_buff) : Option (World T P × Bool) :=
  if !w1.hu.tty then none else
  match w1.tty.ops.write with
  | none => none
  | some write =>
    let r := write w1.tty.driver skb.data
    let len := as_int r.1
    let w2 : World T P :=
      { w1 with
          tty.flags_DO_WRITE_WAKEUP := true,
          tty.driver := r.2.2,
          hu.tx_state_TX_WAKEUP := w1.hu.tx_state_TX_WAKEUP || r.2.1,
          hu.hdev := w1.hu.hdev.map
            (fun hdev => { hdev with stat.byte_tx := u32_add hdev.stat.byte_tx len }),
          trace := w1.trace ++ [Event.tty_write skb.data len] }
    let skb1 := skb_pull skb len
    if skb1.len ≠ 0 then
      some ({ w2 with hu.tx_skb := some skb1 }, false)
    else
      some ({ w2 with hu := hci_uart_tx_complete w2.hu skb1.pkt_type }, true)

/-- One evaluation of the `while` condition of `cg2900_hci_uart_tx_wakeup`
and, when a frame was obtained, of the loop body.  The flag of the result is
`true` when the loop goes on to its next iteration and `false` when the loop
is left (no frame, or `break`). -/
def tx_iter (w : World T P) : Option (World T P × Bool) :=
  match hci_uart_dequeue w with
  | none => none
  | some (none, w1) => some (w1, false)
  | some (some skb, w1) => tx_body w1 skb

/-- The code of `cg2900_hci_uart_tx_wakeup` from the head of the `while` loop
to the `return`: loop iterations, and the jump to `restart` (which clears
`HCI_UART_TX_WAKEUP`) when the flag is found set after the loop.  Every
iteration and every restart uses one unit of fuel; `none` is fuel running out
or a `NULL` dereference. -/
def tx_loop : Nat → World T P → Option (World T P)
  | 0, _ => none
  | fuel + 1, w =>
    match tx_iter w with
    | none => none
    | some (w1, true) => tx_loop fuel w1
    | some (w1, false) =>
      if w1.hu.tx_state_TX_WAKEUP then
        tx_loop fuel { w1 with hu.tx_state_TX_WAKEUP := false }
      else
        some { w1 with hu.tx_state_SENDING := false }

/-- Source: `cg2900_hci_uart_tx_wakeup`. -/
def cg2900_hci_uart_tx_wakeup (fuel : Nat) (w : World T P) : Option (Int × World T P) :=
  if w.hu.tx_state_SENDING then
    some (0, { w with hu.tx_state_TX_WAKEUP := true })
  else
    match tx_loop fuel { w with hu.tx_state_SENDING := true, hu.tx_state_TX_WAKEUP := false } with
    | none => none
    | some w1 => some (0, w1)

/-- Modelled from the spec: `hci_uart.h` is not among the sources, so the
name `hci_uart_tx_wakeup` called by `hci_uart_send_frame` is taken to be the
drain trigger of this file ("returns immediately after enqueueing and
triggering a drain attempt"). -/
def hci_uart_tx_wakeup (fuel : Nat) (w : World T P) : Option (Int × World T P) :=
  cg2900_hci_uart_tx_wakeup fuel w

/-- Source: `cg2900_hci_uart_flush_buffer`. -/
def cg2900_hci_uart_flush_buffer (w : World T P) : Option (World T P) :=
  if !w.hu.tty then none else some (tty_driver_flush_buffer w)

/-! ## Interface to the HCI layer -/

/-- Source: `hci_uart_open`. -/
def hci_uart_open (hdev : hci_dev) : Int × hci_dev :=
  (0, { hdev with flags_HCI_RUNNING := true })

/-- Source: `hci_uart_flush`, for the device of the session
(`hu = hci_get_drvdata(hdev)`). -/
def hci_uart_flush (w : World T P) : Option (Int × World T P) :=
  if !w.hu.tty then none else
  let w1 : World T P := { w with hu.tx_skb := none }
  let w2 := tty_ldisc_flush w1
  let w3 := tty_driver_flush_buffer w2
  if w3.hu.flags_PROTO_SET then
    match w3.hu.proto with
    | none => none
    | some p =>
      some (0, { w3 with hu.priv := p.flush w3.hu.priv,
                         trace := w3.trace ++ [Event.proto_flush p.id] })
  else some (0, w3)

/-- Source: `hci_uart_close`, for the device of the session. -/
def hci_uart_close (w : World T P) : Option (Int × World T P) :=
  match w.hu.hdev with
  | none => none
  | some hdev =>
    if !hdev.flags_HCI_RUNNING then some (0, w)
    else
      let w1 : World T P := { w with hu.hdev := some { hdev with flags_HCI_RUNNING := false } }
      match hci_uart_flush w1 with
      | none => none
      | some (_, w2) =>
        some (0, { w2 with hu.hdev := w2.hu.hdev.map (fun h => { h with flush := false }) })

/-- The statement `hu->proto->enqueue(hu, skb)`. -/
def proto_enqueue (w : World T P) (skb : sk_buff) : Option (World T P) :=
  match w.hu.proto with
  | none => none
  | some p =>
    some { w with hu.priv := p.enqueue w.hu.priv skb,
                  trace := w.trace ++ [Event.proto_enqueue p.id skb] }

/-- Source: `hci_uart_send_frame`.  A frame with `skb->dev` set refers to the
device of the session. -/
def hci_uart_send_frame (fuel : Nat) (w : World T P) (skb : sk_buff) :
    Option (Int × World T P) :=
  if !skb.dev then some (-ENODEV, w) else
  match w.hu.hdev with
  | none => none
  | some hdev =>
    if !hdev.flags_HCI_RUNNING then some (-EBUSY, w) else
    match proto_enqueue w skb with
    | none => none
    | some w1 =>
      match hci_uart_tx_wakeup fuel w1 with
      | none => none
      | some (_, w2) => some (0, w2)

/-! ## Line discipline part -/

/-- The session as `kzalloc` and the first assignments of
`hci_uart_tty_open` leave it: every field zero, `hu->tty` set. -/
def hci_uart_zero [Inhabited P] : hci_uart P :=
  { tty := true, hdev := none, flags_PROTO_SET := false, hdev_flags := 0, proto := none,
    priv := default, tx_skb := none, tx_state_SENDING := false,
    tx_state_TX_WAKEUP := false, fd := none }

/-- Source: `hci_uart_tty_open`. -/
def hci_uart_tty_open [Inhabited P] (env : Env) (w : World T P) : Int × World T P :=
  if w.tty.disc_data then (-EEXIST, w)
  else if w.tty.ops.write.isNone then (-EOPNOTSUPP, w)
  else if !env.kzalloc_ok then (-ENFILE, w)
  else
    let w1 : World T P :=
      { w with tty.disc_data := true, tty.receive_room := 65536, hu := hci_uart_zero }
    let w2 : World T P :=
      if w1.tty.ldisc_flush_buffer then
        { w1 with trace := w1.trace ++ [Event.ldisc_flush_buffer] }
      else w1
    (0, tty_driver_flush_buffer w2)

/-- Source: `hci_uart_tty_close`. -/
def hci_uart_tty_close (w : World T P) : Option (World T P) :=
  let attached := w.tty.disc_data
  let w1 : World T P := { w with tty.disc_data := false }
  if !attached then some w1 else
  let hdev := w1.hu.hdev
  match (if hdev.isSome then (hci_uart_close w1).map Prod.snd else some w1) with
  | none => none
  | some w2 =>
    if w2.hu.flags_PROTO_SET then
      let w3 : World T P := { w2 with hu.flags_PROTO_SET := false }
      match w3.hu.proto with
      | none => none
      | some p =>
        let w4 : World T P :=
          { w3 with hu.priv := p.close w3.hu.priv,
                    trace := w3.trace ++ [Event.proto_close p.id] }
        if hdev.isSome then some (hci_free_dev (hci_unregister_dev w4)) else some w4
    else some w2

/-- Source: `hci_uart_tty_wakeup`. -/
def hci_uart_tty_wakeup (w : World T P) : Option (World T P) :=
  if !w.tty.disc_data then some w else
  let w1 : World T P := { w with tty.flags_DO_WRITE_WAKEUP := false }
  if !w1.hu.tty then some w1
  else if w1.hu.flags_PROTO_SET then
    match w1.hu.proto with
    | none => none
    | some p =>
      some { w1 with hu.priv := p.send_callback w1.hu.priv,
                     trace := w1.trace ++ [Event.proto_send_callback p.id] }
  else some w1

/-- Source: `hci_uart_tty_receive` (the argument `flags` is not used). -/
def hci_uart_tty_receive (w : World T P) (data : List Nat) (count : Int) :
    Option (World T P) :=
  if !w.tty.disc_data || !w.hu.tty then some w
  else if !w.hu.flags_PROTO_SET then some w
  else
    match w.hu.proto with
    | none => none
    | some p =>
      let w1 : World T P :=
        { w with hu.priv := p.recv w.hu.priv data count,
                 trace := w.trace ++ [Event.proto_recv p.id data count] }
      let w2 : World T P :=
        { w1 with
            hu.hdev := w1.hu.hdev.map
              (fun hdev => { hdev with stat.byte_rx := u32_add hdev.stat.byte_rx count }) }
      some (tty_unthrottle w2)

/-- The device `hci_alloc_dev` returns, before any field is set. -/
def hci_dev_zero : hci_dev :=
  { id := 0, flags_HCI_RUNNING := false, quirks_NO_RESET := false, quirks_RAW_DEVICE := false,
    stat := { cmd_tx := 0, acl_tx := 0, sco_tx := 0, byte_rx := 0, byte_tx := 0 },
    open_ := false, close := false, flush := false, send := false,
    registered := false, freed := false }

/-- Source: `hci_uart_register_dev`.  On success `hci_register_dev` has given
the device its id. -/
def hci_uart_register_dev (env : Env) (w : World T P) : Int × World T P :=
  let w0 : World T P := { w with trace := w.trace ++ [Event.hci_alloc_dev] }
  if !env.hci_alloc_dev_ok then (-ENOMEM, w0)
  else
    let hdev : hci_dev :=
      { hci_dev_zero with
          open_ := true, close := true, flush := true, send := true,
          quirks_NO_RESET := !env.reset,
          quirks_RAW_DEVICE := w0.hu.hdev_flags.testBit env.HCI_UART_RAW_DEVICE }
    let w1 : World T P :=
      { w0 with hu.hdev := some hdev, trace := w0.trace ++ [Event.hci_register_dev] }
    if env.hci_register_dev_ret < 0 then
      (-ENODEV, hci_free_dev w1)
    else
      (0, { w1 with hu.hdev := some { hdev with registered := true,
                                                 id := env.hci_register_dev_ret } })

/-- Source: `hci_uart_set_proto`. -/
def hci_uart_set_proto (env : Env) (w : World T P) (id : Int) : Int × World T P :=
  match hci_uart_get_proto env.HCI_UART_MAX_PROTO w.hup (as_uint id) with
  | none => (-EPROTONOSUPPORT, w)
  | some p =>
    let w1 : World T P := { w with hu.proto := some p }
    let r := p.open_ w1.hu.priv
    let w2 : World T P :=
      { w1 with hu.priv := r.2, trace := w1.trace ++ [Event.proto_open p.id] }
    let err := as_int r.1
    if err ≠ 0 then (err, w2)
    else if !p.register_hci_dev then (0, w2)
    else
      let rd := hci_uart_register_dev env w2
      if rd.1 ≠ 0 then
        (rd.1, { rd.2 with hu.priv := p.close rd.2.hu.priv,
                           trace := rd.2.trace ++ [Event.proto_close p.id] })
      else (0, rd.2)

/-- The `cmd` argument of the ioctl. -/
inductive IoctlCmd where
  | HCIUARTSETPROTO
  | HCIUARTGETPROTO
  | HCIUARTGETDEVICE
  | HCIUARTSETFLAGS
  | HCIUARTGETFLAGS
  | other (cmd : Nat)
deriving DecidableEq, Repr

/-- Source: `hci_uart_tty_ioctl`; `file` stands for the `struct file *`. -/
def hci_uart_tty_ioctl (env : Env) (w : World T P) (file : Nat) (cmd : IoctlCmd)
    (arg : Nat) : Option (Int × World T P) :=
  if !w.tty.disc_data then some (-EBADF, w) else
  match cmd with
  | .HCIUARTSETPROTO =>
    if !w.hu.flags_PROTO_SET then
      let w1 : World T P := { w with hu.flags_PROTO_SET := true }
      let r := hci_uart_set_proto env w1 (as_int arg)
      if r.1 ≠ 0 then
        some (r.1, { r.2 with hu.flags_PROTO_SET := false })
      else
        some (r.1, { r.2 with hu.fd := some file })
    else some (-EBUSY, w)
  | .HCIUARTGETPROTO =>
    if w.hu.flags_PROTO_SET then
      match w.hu.proto with
      | none => none
      | some p => some (as_int p.id, w)
    else some (-EUNATCH, w)
  | .HCIUARTGETDEVICE =>
    if w.hu.flags_PROTO_SET then
      match w.hu.hdev with
      | some hdev => some (hdev.id, w)
      | none => some (-ENOMSG, w)
    else some (-EUNATCH, w)
  | .HCIUARTSETFLAGS =>
    if w.hu.flags_PROTO_SET then some (-EBUSY, w)
    else some (0, { w with hu.hdev_flags := arg })
  | .HCIUARTGETFLAGS => some (as_int w.hu.hdev_flags, w)
  | .other _ => some (env.n_tty_ioctl_helper_ret, w)

/-! ## Observations used to state the properties -/

/-- The bytes the channel accepted in one recorded call: the first `ret`
bytes of the buffer of a `write` that returned `ret ≥ 0`. -/
def Event.accepted : Event → List Nat
  | .tty_write data ret => if 0 ≤ ret then data.take ret.toNat else []
  | _ => []

/-- The concatenation of the bytes accepted by the channel, over a trace. -/
def accepted_bytes (trace : List Event) : List Nat :=
  (trace.map Event.accepted).flatten

/-- A step of a transmit scenario: the upper layer hands a frame to the
protocol queue, or the drain is triggered. -/
inductive TxOp where
  | enqueue (skb : sk_buff)
  | wakeup
deriving DecidableEq, Repr

/-- The bytes a step enqueues. -/
def TxOp.bytes : TxOp → List Nat
  | .enqueue skb => skb.data
  | .wakeup => []

/-- The concatenation of the enqueued frames of a scenario, in enqueue order. -/
def enqueued_bytes (ops : List TxOp) : List Nat :=
  (ops.map TxOp.bytes).flatten

/-- A sequential series of frame enqueues and `cg2900_hci_uart_tx_wakeup`
calls; every call gets `fuel`. -/
def run_tx_ops (fuel : Nat) : List TxOp → World T P → Option (World T P)
  | [], w => some w
  | .enqueue skb :: ops, w =>
    match proto_enqueue w skb with
    | none => none
    | some w1 => run_tx_ops fuel ops w1
  | .wakeup :: ops, w =>
    match cg2900_hci_uart_tx_wakeup fuel w with
    | none => none
    | some (_, w1) => run_tx_ops fuel ops w1

/-- The outbound queue of protocol `p` is FIFO: `q` reads the queued frames
off the private data, `enqueue` adds at the tail and `dequeue` removes at the
head (and gives no frame exactly when the queue is empty). -/
structure IsFifo (p : hci_uart_proto P) (q : P → List sk_buff) : Prop where
  enqueue_tail : ∀ s skb, q (p.enqueue s skb) = q s ++ [skb]
  dequeue_nil : ∀ s, q s = [] → (p.dequeue s).1 = none ∧ q (p.dequeue s).2 = []
  dequeue_head : ∀ s x xs, q s = x :: xs → (p.dequeue s).1 = some x ∧ q (p.dequeue s).2 = xs

/-- The channel accepts between 0 and the requested number of bytes on every
`write` (the value read as a C `int`). -/
def WriteInRange (ops : tty_operations T) : Prop :=
  ∃ write, ops.write = some write ∧
    ∀ t data, 0 ≤ as_int (write t data).1 ∧ as_int (write t data).1 ≤ data.length

/-- The bytes not yet accepted by the channel: the held frame, then the
frames of the protocol queue. -/
def pending_bytes (q : P → List sk_buff) (hu : hci_uart P) : List Nat :=
  (match hu.tx_skb with | none => [] | some skb => skb.data)
    ++ ((q hu.priv).map sk_buff.data).flatten

/-- The bytes accepted so far followed by the bytes still to be written. -/
def tx_total (q : P → List sk_buff) (w : World T P) : List Nat :=
  accepted_bytes w.trace ++ pending_bytes q w.hu

/-- Deliveries of inbound chunks, one `hci_uart_tty_receive` call each. -/
def run_receive : List (List Nat × Int) → World T P → Option (World T P)
  | [], w => some w
  | c :: cs, w =>
    match hci_uart_tty_receive w c.1 c.2 with
    | none => none
    | some w1 => run_receive cs w1

/-- The calls a delivery of chunk `c` makes when protocol `id` is bound. -/
def recv_events (id : Nat) (c : List Nat × Int) : List Event :=
  [Event.proto_recv id c.1 c.2, Event.tty_unthrottle]

/-- Whether an event is a call of a `recv` hook. -/
def Event.is_recv : Event → Bool
  | .proto_recv _ _ _ => true
  | _ => false

/-- Whether an event is a call of an `open` hook. -/
def Event.is_open : Event → Bool
  | .proto_open _ => true
  | _ => false

/-- Whether an event is a call of an `enqueue` hook. -/
def Event.is_enqueue : Event → Bool
  | .proto_enqueue _ _ => true
  | _ => false

/-- The driver re-enters `cg2900_hci_uart_tx_wakeup` from its `write` only
finitely often: `budget` bounds, for every driver state, the number of later
`write` calls that re-enter. -/
def ReentryBounded (ops : tty_operations T) (budget : T → Nat) : Prop :=
  ∃ write, ops.write = some write ∧
    ∀ t data, budget (write t data).2.2 + (if (write t data).2.1 then 1 else 0) ≤ budget t

/-- The number of frames waiting for the channel: the held frame and the
frames of the protocol queue. -/
def tx_frames (q : P → List sk_buff) (hu : hci_uart P) : Nat :=
  (if hu.tx_skb.isSome then 1 else 0) + (q hu.priv).length

/-- A bound on the loop iterations and restarts a drain pass still makes. -/
def tx_measure (q : P → List sk_buff) (budget : T → Nat) (w : World T P) : Nat :=
  tx_frames q w.hu
    + 2 * (budget w.tty.driver + (if w.hu.tx_state_TX_WAKEUP then 1 else 0))

/-- How a drain pass ends.  Either its last call was a `write` that took
fewer bytes than the frame had, and the held frame is that frame without the
bytes taken; or its last call was the protocol's `dequeue`, which gave no
frame, and no frame is held. -/
def DrainExit (p : hci_uart_proto P) (w : World T P) : Prop :=
  (∃ (skb : sk_buff) (len : Int), w.trace.getLast? = some (Event.tty_write skb.data len) ∧
      0 ≤ len ∧ len.toNat < skb.data.length ∧
      w.hu.tx_skb = some { skb with data := skb.data.drop len.toNat }) ∨
  (∃ s, w.trace.getLast? = some (Event.proto_dequeue p.id) ∧
      (p.dequeue s).1 = none ∧ w.hu.priv = (p.dequeue s).2 ∧ w.hu.tx_skb = none)

/-- The loop-head state of a drain pass after `n` further steps of the loop of
`cg2900_hci_uart_tx_wakeup`, a step being an iteration that goes on or an
iteration that leaves the loop followed by the jump to `restart`.  `none` when
the pass ends (or faults) within these steps. -/
def tx_advance : Nat → World T P → Option (World T P)
  | 0, w => some w
  | n + 1, w =>
    match tx_iter w with
    | none => none
    | some (w1, true) => tx_advance n w1
    | some (w1, false) =>
      if w1.hu.tx_state_TX_WAKEUP then
        tx_advance n { w1 with hu.tx_state_TX_WAKEUP := false }
      else none

end Model

/-! ## Concurrent triggers of the drain -/

/-- The program points of one execution of `cg2900_hci_uart_tx_wakeup`:
`entry` before `test_and_set_bit(HCI_UART_SENDING)`; `busy` after that found
the bit set, before `set_bit(HCI_UART_TX_WAKEUP)`; `restart` before
`clear_bit(HCI_UART_TX_WAKEUP)`; `loop_head` before `hci_uart_dequeue`; `body`
with the frame obtained, before the loop body; `check` before
`test_bit(HCI_UART_TX_WAKEUP)`; `release` before
`clear_bit(HCI_UART_SENDING)`; `done` after `return`. -/
inductive DrainPc where
  | entry
  | busy
  | restart
  | loop_head
  | body (skb : sk_buff)
  | check
  | release
  | done
deriving DecidableEq, Repr

/-- Whether an execution is between claiming and releasing the draining
flag: `test_and_set_bit` found it clear and `clear_bit(HCI_UART_SENDING)` is
still to come. -/
def DrainPc.critical : DrainPc → Bool
  | .restart => true
  | .loop_head => true
  | .body _ => true
  | .check => true
  | .release => true
  | _ => false

/-- What the log of an interleaving records of an execution: it claimed the
draining flag, it called the channel's `write`, it released the flag. -/
inductive DrainAct where
  | claim
  | write
  | release
deriving DecidableEq, Repr

/-- The session shared by the executions of `cg2900_hci_uart_tx_wakeup`, the
program point of every execution (executions are numbered), and the log of
claims, writes and releases with the number of the execution that made them. -/
structure Interleaving (T P : Type) where
  w : World T P
  pc : Nat → DrainPc
  log : List (Nat × DrainAct)

/-- The program points with that of execution `i` changed to `x`. -/
def set_pc (pc : Nat → DrainPc) (i : Nat) (x : DrainPc) : Nat → DrainPc :=
  fun j => if j = i then x else pc j

/-- One atomic step of execution `i` of `cg2900_hci_uart_tx_wakeup` on the
shared session: the bit operation, the `hci_uart_dequeue` call or the loop
body at its program point.  `none` when the execution has returned (or on a
`NULL` dereference). -/
def drain_step {T P : Type} (i : Nat) (s : Interleaving T P) : Option (Interleaving T P) :=
  match s.pc i with
  | .entry =>
    if s.w.hu.tx_state_SENDING then
      some { s with pc := set_pc s.pc i .busy }
    else
      some { w := { s.w with hu.tx_state_SENDING := true },
             pc := set_pc s.pc i .restart,
             log := s.log ++ [(i, DrainAct.claim)] }
  | .busy =>
    some { s with w := { s.w with hu.tx_state_TX_WAKEUP := true },
                  pc := set_pc s.pc i .done }
  | .restart =>
    some { s with w := { s.w with hu.tx_state_TX_WAKEUP := false },
                  pc := set_pc s.pc i .loop_head }
  | .loop_head =>
    match hci_uart_dequeue s.w with
    | none => none
    | some (none, w1) => some { s with w := w1, pc := set_pc s.pc i .check }
    | some (some skb, w1) => some { s with w := w1, pc := set_pc s.pc i (.body skb) }
  | .body skb =>
    match tx_body s.w skb with
    | none => none
    | some (w1, true) =>
      some { w := w1, pc := set_pc s.pc i .loop_head, log := s.log ++ [(i, DrainAct.write)] }
    | some (w1, false) =>
      some { w := w1, pc := set_pc s.pc i .check, log := s.log ++ [(i, DrainAct.write)] }
  | .check =>
    if s.w.hu.tx_state_TX_WAKEUP then
      some { s with pc := set_pc s.pc i .restart }
    else
      some { s with pc := set_pc s.pc i .release }
  | .release =>
    some { w := { s.w with hu.tx_state_SENDING := false },
           pc := set_pc s.pc i .done,
           log := s.log ++ [(i, DrainAct.release)] }
  | .done => none

/-- An interleaving: the schedule names, step by step, the execution that
moves; a step of an execution that cannot move changes nothing. -/
def drain_run {T P : Type} : List Nat → Interleaving T P → Interleaving T P
  | [], s => s
  | i :: sched, s => drain_run sched ((drain_step i s).getD s)

/-- Every execution about to start, nothing logged. -/
def drain_init {T P : Type} (w : World T P) : Interleaving T P :=
  { w := w, pc := fun _ => .entry, log := [] }

/-- The holder of the draining claim after one logged action, `none` when the
action is not allowed: a claim needs the flag free, a write and a release need
the acting execution to be the holder. -/
def log_step (o : Option Nat) (e : Nat × DrainAct) : Option (Option Nat) :=
  match e.2 with
  | .claim => if o = none then some (some e.1) else none
  | .write => if o = some e.1 then some o else none
  | .release => if o = some e.1 then some none else none

/-- The holder of the draining claim after a log, starting from holder `o`;
`none` when some action of the log is not allowed.  A log that passes is a
sequence of periods "claim by `i`, writes by `i`, release by `i`". -/
def log_owner (o : Option Nat) : List (Nat × DrainAct) → Option (Option Nat)
  | [] => some o
  | e :: es =>
    match log_step o e with
    | none => none
    | some o1 => log_owner o1 es

/-- The invariant of the interleavings: the log passes, its holder is the one
execution between claiming and releasing, and `HCI_UART_SENDING` is set
exactly when there is a holder. -/
def DrainInv {T P : Type} (s : Interleaving T P) : Prop :=
  ∃ o, log_owner none s.log = some o ∧
    (∀ i, (s.pc i).critical = true ↔ o = some i) ∧
    (s.w.hu.tx_state_SENDING = true ↔ o.isSome = true)

/-! ## Concrete instances -/

/-- A protocol that keeps its outbound queue as its private data, in the way
the H4 protocol keeps `txq`: `enqueue` is `skb_queue_tail`, `dequeue` is
`skb_dequeue`; `open` gives `open_ret`. -/
def queue_proto (id : Nat) (open_ret : Int) (register_hci_dev : Bool) :
    hci_uart_proto (List sk_buff) :=
  { id := id,
    open_ := fun s => (open_ret, s),
    close := fun _ => [],
    flush := fun _ => [],
    recv := fun s _ _ => s,
    enqueue := fun s skb => s ++ [skb],
    dequeue := fun s => (s.head?, s.tail),
    send_callback := fun s => s,
    register_hci_dev := register_hci_dev }

/-- A driver that counts its `write` calls and accepts at most `room` bytes
per call. -/
def room_ops (room : Nat) : tty_operations Nat :=
  { write := some (fun t data => (((min data.length room : Nat) : Int), false, t + 1)),
    flush_buffer := fun t => t,
    ldisc_flush := fun t => t,
    unthrottle := fun t => t }

/-- A driver whose `write` fails with the value `err`. -/
def failing_ops (err : Int) : tty_operations Nat :=
  { write := some (fun t _ => (err, false, t + 1)),
    flush_buffer := fun t => t,
    ldisc_flush := fun t => t,
    unthrottle := fun t => t }

/-- A channel that no line discipline session is attached to. -/
def demo_tty (ops : tty_operations Nat) : tty_struct Nat :=
  { ops := ops, driver := 0, disc_data := false, flags_DO_WRITE_WAKEUP := false,
    receive_room := 0, ldisc_flush_buffer := false }

/-- A world before `hci_uart_tty_open`: table `hup`, channel with `ops`. -/
def demo_world (hup : Registry (List sk_buff)) (ops : tty_operations Nat) :
    World Nat (List sk_buff) :=
  { hup := hup, tty := demo_tty ops, hu := { (hci_uart_zero) with tty := false }, trace := [] }

/-- Constants and kernel results of the examples: six table slots, every
kernel call succeeds, `hci_register_dev` gives id 0. -/
def demo_env : Env :=
  { HCI_UART_MAX_PROTO := 6, HCI_UART_RAW_DEVICE := 0, reset := false, kzalloc_ok := true,
    hci_alloc_dev_ok := true, hci_register_dev_ret := 0, n_tty_ioctl_helper_ret := 0 }

/-- The empty protocol table. -/
def empty_hup : Registry (List sk_buff) := fun _ => none

/-- A transmit scenario: a three-byte frame, a drain, a two-byte frame, two
drains. -/
def demo_tx_ops : List TxOp :=
  [.enqueue { data := [1, 2, 3], pkt_type := 2, dev := true }, .wakeup,
   .enqueue { data := [4, 5], pkt_type := 2, dev := true }, .wakeup, .wakeup]

/-- The table that holds one protocol, at id 5. -/
def demo_hup : Registry (List sk_buff) :=
  fun i => if i = 5 then some (queue_proto 5 0 true) else none

/-- The session `hci_uart_tty_open` creates on the example channel. -/
def demo_session (hup : Registry (List sk_buff)) (ops : tty_operations Nat) :
    World Nat (List sk_buff) :=
  (hci_uart_tty_open demo_env (demo_world hup ops)).2

/-- The example session after `HCIUARTSETPROTO` with argument `id`. -/
def demo_bound (hup : Registry (List sk_buff)) (ops : tty_operations Nat) (id : Nat) :
    World Nat (List sk_buff) :=
  match hci_uart_tty_ioctl demo_env (demo_session hup ops) 3 .HCIUARTSETPROTO id with
  | some r => r.2
  | none => demo_session hup ops

/-- The bound example session after the HCI core has called `hci_uart_open`
on its device. -/
def demo_running (hup : Registry (List sk_buff)) (ops : tty_operations Nat) (id : Nat) :
    World Nat (List sk_buff) :=
  { demo_bound hup ops id with
      hu.hdev := (demo_bound hup ops id).hu.hdev.map (fun hdev => (hci_uart_open hdev).2) }

/-- A three-byte ACL frame for the device of the session. -/
def demo_frame : sk_buff := { data := [1, 2, 3], pkt_type := 2, dev := true }

/-- The running example session with `demo_frame` left held by a write. -/
def demo_held (ops : tty_operations Nat) : World Nat (List sk_buff) :=
  { demo_running demo_hup ops 5 with hu.tx_skb := some demo_frame }

/-- The table that holds, at id 5, a protocol whose open hook fails with -5. -/
def demo_fail_hup : Registry (List sk_buff) :=
  fun i => if i = 5 then some (queue_proto 5 (-5) true) else none

/-- The bound example session, its device not opened by the HCI core, with
`demo_frame` held. -/
def demo_held_idle : World Nat (List sk_buff) :=
  { demo_bound demo_hup (room_ops 2) 5 with hu.tx_skb := some demo_frame }

/-- A driver that accepts one byte per `write` and re-enters
`cg2900_hci_uart_tx_wakeup` from `write` as long as its counter is not 0. -/
def reentrant_ops : tty_operations Nat :=
  { write := some (fun t data => (((min data.length 1 : Nat) : Int), decide (0 < t), t - 1)),
    flush_buffer := fun t => t,
    ldisc_flush := fun t => t,
    unthrottle := fun t => t }

/-- The running example session on the re-entering driver (counter 2), with
`demo_frame` held. -/
def demo_reentrant : World Nat (List sk_buff) :=
  { demo_held reentrant_ops with tty.driver := 2 }

/-- A driver that accepts the whole buffer on its first `ok` calls of `write`
and fails every later call with the value `err`. -/
def fail_after_ops (ok : Nat) (err : Int) : tty_operations Nat :=
  { write := some (fun t data =>
      (if t < ok then (data.length : Int) else err, false, t + 1)),
    flush_buffer := fun t => t,
    ldisc_flush := fun t => t,
    unthrottle := fun t => t }

/-- A second frame, two bytes long. -/
def demo_frame2 : sk_buff := { data := [4, 5], pkt_type := 2, dev := true }

/-- The running example session with two frames in the protocol queue, on the
driver that takes the first `write` whole and fails the second with -5. -/
def demo_two_frames : World Nat (List sk_buff) :=
  { demo_running demo_hup (fail_after_ops 1 (-5)) 5 with
      hu.priv := [demo_frame, demo_frame2] }

/-- A schedule of two executions of the drain: 0 starts, 1 starts, 0 moves, 1
finishes, then 0 runs to its return. -/
def demo_schedule : List Nat := [0, 1, 0, 1, 0, 0, 0, 0, 0, 0, 0, 0, 0, 0]

/-! ## Protocol registry: properties -/

/-- C4: `cg2900_hci_uart_register_proto(p)` gives `-EINVAL` when `p.id` is not
below `HCI_UART_MAX_PROTO`, gives `-EEXIST` when slot `p.id` is occupied (the
table is unchanged in both cases), and otherwise gives 0, after which the
lookup of `p.id` gives `p` and the lookup of every other id is unchanged. -/
theorem register_proto_spec {P : Type} (MAX : Nat) (hup : Registry P) (p : hci_uart_proto P) :
    (MAX ≤ p.id → cg2900_hci_uart_register_proto MAX hup p = (-EINVAL, hup)) ∧
    (p.id < MAX → (hup p.id).isSome = true →
      cg2900_hci_uart_register_proto MAX hup p = (-EEXIST, hup)) ∧
    (p.id < MAX → hup p.id = none →
      (cg2900_hci_uart_register_proto MAX hup p).1 = 0 ∧
      hci_uart_get_proto MAX (cg2900_hci_uart_register_proto MAX hup p).2 p.id = some p ∧
      ∀ i, i ≠ p.id →
        hci_uart_get_proto MAX (cg2900_hci_uart_register_proto MAX hup p).2 i
          = hci_uart_get_proto MAX hup i) := by
  refine ⟨?_, ?_, ?_⟩
  · intro h
    simp [cg2900_hci_uart_register_proto, h]
  · intro h hs
    simp [cg2900_hci_uart_register_proto, Nat.not_le.mpr h, hs]
  · intro h hn
    have hle : ¬ MAX ≤ p.id := Nat.not_le.mpr h
    refine ⟨?_, ?_, ?_⟩
    · simp [cg2900_hci_uart_register_proto, hle, hn]
    · simp [cg2900_hci_uart_register_proto, hci_uart_get_proto, hle, hn]
    · intro i hi
      simp [cg2900_hci_uart_register_proto, hci_uart_get_proto, hle, hn, hi]

/-- Witness of C4 in an empty six-slot table: id 7 is refused, id 5 is stored. -/
theorem register_proto_spec_witness :
    cg2900_hci_uart_register_proto 6 empty_hup (queue_proto 7 0 true) = (-EINVAL, empty_hup) ∧
    (cg2900_hci_uart_register_proto 6 empty_hup (queue_proto 5 0 true)).1 = 0 ∧
    hci_uart_get_proto 6 (cg2900_hci_uart_register_proto 6 empty_hup (queue_proto 5 0 true)).2 5
      = some (queue_proto 5 0 true) :=
  ⟨(register_proto_spec 6 empty_hup (queue_proto 7 0 true)).1 (by decide),
   ((register_proto_spec 6 empty_hup (queue_proto 5 0 true)).2.2 (by decide) rfl).1,
   ((register_proto_spec 6 empty_hup (queue_proto 5 0 true)).2.2 (by decide) rfl).2.1⟩

/-- C5: for a valid id, registering `implA` and then `implB` with the same id,
with no unregister in between, makes the second call fail with `-EEXIST` and
leaves the table as the first call left it; when the first call succeeded the
lookup of the id still gives `implA`. -/
theorem register_twice_rejected {P : Type} (MAX : Nat) (hup : Registry P)
    (implA implB : hci_uart_proto P) (hid : implA.id < MAX) (hAB : implB.id = implA.id) :
    (cg2900_hci_uart_register_proto MAX
        (cg2900_hci_uart_register_proto MAX hup implA).2 implB).1 = -EEXIST ∧
    (cg2900_hci_uart_register_proto MAX
        (cg2900_hci_uart_register_proto MAX hup implA).2 implB).2
      = (cg2900_hci_uart_register_proto MAX hup implA).2 ∧
    ((cg2900_hci_uart_register_proto MAX hup implA).1 = 0 →
      hci_uart_get_proto MAX
        (cg2900_hci_uart_register_proto MAX
          (cg2900_hci_uart_register_proto MAX hup implA).2 implB).2 implA.id = some implA) := by
  have hle : ¬ MAX ≤ implA.id := Nat.not_le.mpr hid
  cases hslot : hup implA.id with
  | none =>
    simp [cg2900_hci_uart_register_proto, hci_uart_get_proto, hle, hAB, hslot]
  | some p0 =>
    simp [cg2900_hci_uart_register_proto, hci_uart_get_proto, hle, hAB, hslot, EEXIST]

/-- Witness of C5 at id 5: two different implementations, empty table. -/
theorem register_twice_rejected_witness :
    ((queue_proto 5 0 true).id < 6 ∧ (queue_proto 5 0 false).id = (queue_proto 5 0 true).id) ∧
    (cg2900_hci_uart_register_proto 6
        (cg2900_hci_uart_register_proto 6 empty_hup (queue_proto 5 0 true)).2
        (queue_proto 5 0 false)).1 = -EEXIST ∧
    hci_uart_get_proto 6
        (cg2900_hci_uart_register_proto 6
          (cg2900_hci_uart_register_proto 6 empty_hup (queue_proto 5 0 true)).2
          (queue_proto 5 0 false)).2 5 = some (queue_proto 5 0 true) :=
  ⟨⟨by decide, rfl⟩,
   (register_twice_rejected 6 empty_hup (queue_proto 5 0 true) (queue_proto 5 0 false)
      (by decide) rfl).1,
   (register_twice_rejected 6 empty_hup (queue_proto 5 0 true) (queue_proto 5 0 false)
      (by decide) rfl).2.2 rfl⟩

/-- C6: `cg2900_hci_uart_unregister_proto(p)` fails when `p.id` is out of range
and fails when slot `p.id` is empty (the code reports both with `-EINVAL`),
leaving the table unchanged; otherwise it gives 0, after which the lookup of
`p.id` finds nothing and the lookup of every other id is unchanged. -/
theorem unregister_proto_spec {P : Type} (MAX : Nat) (hup : Registry P)
    (p : hci_uart_proto P) :
    (MAX ≤ p.id → cg2900_hci_uart_unregister_proto MAX hup p = (-EINVAL, hup)) ∧
    (p.id < MAX → hup p.id = none →
      cg2900_hci_uart_unregister_proto MAX hup p = (-EINVAL, hup)) ∧
    (p.id < MAX → (hup p.id).isSome = true →
      (cg2900_hci_uart_unregister_proto MAX hup p).1 = 0 ∧
      hci_uart_get_proto MAX (cg2900_hci_uart_unregister_proto MAX hup p).2 p.id = none ∧
      ∀ i, i ≠ p.id →
        hci_uart_get_proto MAX (cg2900_hci_uart_unregister_proto MAX hup p).2 i
          = hci_uart_get_proto MAX hup i) := by
  refine ⟨?_, ?_, ?_⟩
  · intro h
    simp [cg2900_hci_uart_unregister_proto, h]
  · intro h hn
    simp [cg2900_hci_uart_unregister_proto, Nat.not_le.mpr h, hn]
  · intro h hs
    have hle : ¬ MAX ≤ p.id := Nat.not_le.mpr h
    have hnn : (hup p.id).isNone = false := by
      cases hq : hup p.id with
      | none => simp [hq] at hs
      | some x => rfl
    refine ⟨?_, ?_, ?_⟩
    · simp [cg2900_hci_uart_unregister_proto, hle, hnn]
    · simp [cg2900_hci_uart_unregister_proto, hci_uart_get_proto, hle, hnn]
    · intro i hi
      simp [cg2900_hci_uart_unregister_proto, hci_uart_get_proto, hle, hnn, hi]

/-- Witness of C6: in the table holding one protocol at id 5, unregistering
id 7 and id 3 fails, unregistering id 5 empties the slot. -/
theorem unregister_proto_spec_witness :
    cg2900_hci_uart_unregister_proto 6 demo_hup (queue_proto 7 0 true) = (-EINVAL, demo_hup) ∧
    cg2900_hci_uart_unregister_proto 6 demo_hup (queue_proto 3 0 true) = (-EINVAL, demo_hup) ∧
    hci_uart_get_proto 6
        (cg2900_hci_uart_unregister_proto 6 demo_hup (queue_proto 5 0 true)).2 5 = none :=
  ⟨(unregister_proto_spec 6 demo_hup (queue_proto 7 0 true)).1 (by decide),
   (unregister_proto_spec 6 demo_hup (queue_proto 3 0 true)).2.1 (by decide) rfl,
   ((unregister_proto_spec 6 demo_hup (queue_proto 5 0 true)).2.2 (by decide) rfl).2.1⟩

/-! ## RX dispatcher: properties -/

section Receive

variable {T P : Type}

/-- One delivery to a bound session, in closed form. -/
theorem tty_receive_bound (w : World T P) (p : hci_uart_proto P)
    (hatt : w.tty.disc_data = true) (htty : w.hu.tty = true)
    (hset : w.hu.flags_PROTO_SET = true) (hp : w.hu.proto = some p)
    (data : List Nat) (count : Int) :
    ∃ w1, hci_uart_tty_receive w data count = some w1 ∧
      w1.trace = w.trace ++ recv_events p.id (data, count) ∧
      w1.hu.priv = p.recv w.hu.priv data count ∧
      w1.tty.disc_data = true ∧ w1.hu.tty = true ∧
      w1.hu.flags_PROTO_SET = true ∧ w1.hu.proto = some p := by
  simp [hci_uart_tty_receive, hatt, htty, hset, hp, tty_unthrottle, recv_events]

/-- A sequence of deliveries to a bound session, in closed form. -/
theorem run_receive_bound (p : hci_uart_proto P) (chunks : List (List Nat × Int)) :
    ∀ w : World T P, w.tty.disc_data = true → w.hu.tty = true →
      w.hu.flags_PROTO_SET = true → w.hu.proto = some p →
      ∃ w2, run_receive chunks w = some w2 ∧
        w2.trace = w.trace ++ (chunks.map (recv_events p.id)).flatten := by
  induction chunks with
  | nil => intro w _ _ _ _; exact ⟨w, rfl, by simp⟩
  | cons c cs ih =>
    intro w hatt htty hset hp
    obtain ⟨w1, h1, ht, _, a1, a2, a3, a4⟩ := tty_receive_bound w p hatt htty hset hp c.1 c.2
    obtain ⟨w2, h2, ht2⟩ := ih w1 a1 a2 a3 a4
    refine ⟨w2, ?_, ?_⟩
    · simp [run_receive, h1, h2]
    · simp [ht2, ht]

/-- The `recv` calls among the events of a sequence of deliveries. -/
theorem filter_recv_events (id : Nat) (chunks : List (List Nat × Int)) :
    ((chunks.map (recv_events id)).flatten).filter Event.is_recv
      = chunks.map (fun c => Event.proto_recv id c.1 c.2) := by
  induction chunks with
  | nil => rfl
  | cons c cs ih =>
    simp only [List.map_cons, List.flatten_cons, List.filter_append, ih]
    simp [recv_events, Event.is_recv]

/-- C7: for a bound session, `hci_uart_tty_receive` calls the bound protocol's
`recv` hook once, with exactly the chunk `(data, count)` it was given, and
then issues one unthrottle; for a sequence of chunks the `recv` calls are the
chunks, one call each, in arrival order. -/
theorem tty_receive_dispatch (w : World T P) (p : hci_uart_proto P)
    (hatt : w.tty.disc_data = true) (htty : w.hu.tty = true)
    (hset : w.hu.flags_PROTO_SET = true) (hp : w.hu.proto = some p)
    (data : List Nat) (count : Int) (chunks : List (List Nat × Int)) :
    (∃ w1, hci_uart_tty_receive w data count = some w1 ∧
      w1.trace = w.trace ++ [Event.proto_recv p.id data count, Event.tty_unthrottle] ∧
      w1.hu.priv = p.recv w.hu.priv data count) ∧
    (∃ w2, run_receive chunks w = some w2 ∧
      w2.trace = w.trace ++ (chunks.map (recv_events p.id)).flatten ∧
      w2.trace.filter Event.is_recv
        = w.trace.filter Event.is_recv
          ++ chunks.map (fun c => Event.proto_recv p.id c.1 c.2)) := by
  constructor
  · obtain ⟨w1, h1, ht, hpriv, _⟩ := tty_receive_bound w p hatt htty hset hp data count
    exact ⟨w1, h1, by simpa [recv_events] using ht, hpriv⟩
  · obtain ⟨w2, h2, ht⟩ := run_receive_bound p chunks w hatt htty hset hp
    refine ⟨w2, h2, ht, ?_⟩
    rw [ht, List.filter_append, filter_recv_events]

/-- C8: for a session with no protocol bound, any sequence of
`hci_uart_tty_receive` calls returns normally and leaves the whole world,
trace of hook calls included, unchanged: no `recv` hook is called and the
data is discarded. -/
theorem tty_receive_unbound (w : World T P) (hset : w.hu.flags_PROTO_SET = false)
    (chunks : List (List Nat × Int)) :
    run_receive chunks w = some w := by
  induction chunks with
  | nil => rfl
  | cons c cs ih =>
    have h1 : hci_uart_tty_receive w c.1 c.2 = some w := by
      simp [hci_uart_tty_receive, hset]
    simp [run_receive, h1, ih]

end Receive

/-- Witness of C7: chunks `[1, 2]` and `[3]` delivered to the example session
bound to protocol 5. -/
theorem tty_receive_dispatch_witness :
    ∃ w2, run_receive [([1, 2], 2), ([3], 1)] (demo_bound demo_hup (room_ops 2) 5) = some w2 ∧
      w2.trace.filter Event.is_recv
        = [Event.proto_recv 5 [1, 2] 2, Event.proto_recv 5 [3] 1] := by
  obtain ⟨w2, h2, _, hf⟩ :=
    (tty_receive_dispatch (demo_bound demo_hup (room_ops 2) 5) (queue_proto 5 0 true)
      rfl rfl rfl rfl [] 0 [([1, 2], 2), ([3], 1)]).2
  exact ⟨w2, h2, hf⟩

/-- Witness of C8: chunks `[1, 2]` and `[3]` delivered to the freshly opened
example session, which has no protocol bound. -/
theorem tty_receive_unbound_witness :
    (demo_session demo_hup (room_ops 2)).hu.flags_PROTO_SET = false ∧
    run_receive [([1, 2], 2), ([3], 1)] (demo_session demo_hup (room_ops 2))
      = some (demo_session demo_hup (room_ops 2)) :=
  ⟨rfl, tty_receive_unbound (demo_session demo_hup (room_ops 2)) rfl [([1, 2], 2), ([3], 1)]⟩

/-! ## Flush: properties -/

/-- C9 (as stated, refuted): on the example session bound to protocol 5,
the calls `hci_uart_flush` makes are, in order, `tty_ldisc_flush`,
`tty_driver_flush_buffer`, protocol `flush`; among them the protocol's flush
hook does not come before the flush of the channel's buffers. -/
theorem hci_uart_flush_order_counterexample :
    ∃ w1, hci_uart_flush (demo_bound demo_hup (room_ops 2) 5) = some (0, w1) ∧
      w1.trace.drop (demo_bound demo_hup (room_ops 2) 5).trace.length
        = [Event.tty_ldisc_flush, Event.tty_driver_flush_buffer, Event.proto_flush 5] ∧
      ¬ ((w1.trace.drop (demo_bound demo_hup (room_ops 2) 5).trace.length).indexOf
            (Event.proto_flush 5)
          < (w1.trace.drop (demo_bound demo_hup (room_ops 2) 5).trace.length).indexOf
            Event.tty_driver_flush_buffer) :=
  ⟨_, rfl, by decide, by decide⟩

/-- C9 (amended): for every session, `hci_uart_flush` returns 0, leaves no
held output frame, flushes the channel's buffers (`tty_ldisc_flush`, then
`tty_driver_flush_buffer`) and after that invokes the bound protocol's flush
hook, if and only if a protocol is bound. -/
theorem hci_uart_flush_spec {T P : Type} (w : World T P) (htty : w.hu.tty = true)
    (hp : w.hu.flags_PROTO_SET = true → w.hu.proto.isSome = true) :
    ∃ w1, hci_uart_flush w = some (0, w1) ∧
      w1.hu.tx_skb = none ∧
      w1.trace = w.trace ++ [Event.tty_ldisc_flush, Event.tty_driver_flush_buffer]
        ++ (match w.hu.flags_PROTO_SET, w.hu.proto with
            | true, some p => [Event.proto_flush p.id]
            | _, _ => []) ∧
      w1.hu.priv = (match w.hu.flags_PROTO_SET, w.hu.proto with
            | true, some p => p.flush w.hu.priv
            | _, _ => w.hu.priv) := by
  cases hset : w.hu.flags_PROTO_SET with
  | false =>
    simp [hci_uart_flush, htty, hset, tty_ldisc_flush, tty_driver_flush_buffer]
  | true =>
    cases hproto : w.hu.proto with
    | none => simp [hset, hproto] at hp
    | some p =>
      simp [hci_uart_flush, htty, hset, hproto, tty_ldisc_flush, tty_driver_flush_buffer]

/-- Witness of C9 (amended): the example session bound to protocol 5. -/
theorem hci_uart_flush_spec_witness :
    ∃ w1, hci_uart_flush (demo_bound demo_hup (room_ops 2) 5) = some (0, w1) ∧
      w1.hu.tx_skb = none := by
  obtain ⟨w1, h1, h2, _⟩ :=
    hci_uart_flush_spec (demo_bound demo_hup (room_ops 2) 5) rfl (fun _ => rfl)
  exact ⟨w1, h1, h2⟩

/-! ## Control plane: properties of `HCIUARTSETPROTO` -/

/-- C2: on a session with no protocol bound (as `hci_uart_tty_open` creates
it), for a registered protocol id whose open hook succeeds (and, when the
protocol asks for it, whose device allocation and registration succeed), a
first `HCIUARTSETPROTO` gives 0 and binds the protocol; a second one, with any
argument, gives `-EBUSY` and leaves the whole world unchanged; over both calls
the open hook is called exactly once. -/
theorem bind_protocol_twice {T P : Type} (env : Env) (w : World T P) (p : hci_uart_proto P)
    (file arg file2 arg2 : Nat)
    (hatt : w.tty.disc_data = true) (hset : w.hu.flags_PROTO_SET = false)
    (hp : hci_uart_get_proto env.HCI_UART_MAX_PROTO w.hup (as_uint (as_int arg)) = some p)
    (hopen : as_int (p.open_ w.hu.priv).1 = 0)
    (hreg : p.register_hci_dev = true →
      env.hci_alloc_dev_ok = true ∧ 0 ≤ env.hci_register_dev_ret) :
    ∃ w1, hci_uart_tty_ioctl env w file .HCIUARTSETPROTO arg = some (0, w1) ∧
      hci_uart_tty_ioctl env w1 file2 .HCIUARTSETPROTO arg2 = some (-EBUSY, w1) ∧
      w1.hu.flags_PROTO_SET = true ∧ w1.hu.proto = some p ∧
      w1.trace.filter Event.is_open
        = w.trace.filter Event.is_open ++ [Event.proto_open p.id] := by
  cases hr : p.register_hci_dev with
  | false =>
    simp [hci_uart_tty_ioctl, hci_uart_set_proto, hatt, hset, hp, hopen, hr, Event.is_open]
  | true =>
    obtain ⟨ha, hn⟩ := hreg hr
    have hn' : ¬ env.hci_register_dev_ret < 0 := not_lt.mpr hn
    simp [hci_uart_tty_ioctl, hci_uart_set_proto, hci_uart_register_dev, hatt, hset, hp,
      hopen, hr, ha, hn', Event.is_open]

/-- Witness of C2: the freshly opened example session, bound twice to the
protocol registered at id 5, which asks for device registration. -/
theorem bind_protocol_twice_witness :
    ∃ w1, hci_uart_tty_ioctl demo_env (demo_session demo_hup (room_ops 2)) 3
          .HCIUARTSETPROTO 5 = some (0, w1) ∧
      hci_uart_tty_ioctl demo_env w1 4 .HCIUARTSETPROTO 5 = some (-EBUSY, w1) ∧
      w1.trace.filter Event.is_open = [Event.proto_open 5] := by
  obtain ⟨w1, h1, h2, _, _, h3⟩ :=
    bind_protocol_twice demo_env (demo_session demo_hup (room_ops 2)) (queue_proto 5 0 true)
      3 5 4 5 rfl rfl rfl rfl (fun _ => ⟨rfl, by decide⟩)
  exact ⟨w1, h1, h2, h3⟩

/-- C3 (as stated, refuted): on the freshly opened example session, with a
protocol at id 5 whose open hook fails with -5, `HCIUARTSETPROTO` returns -5
with the bound flag clear, but the session's protocol reference, `NULL` before
the call, refers to that protocol after it. -/
theorem bind_failure_counterexample :
    ∃ w1, hci_uart_tty_ioctl demo_env (demo_session demo_fail_hup (room_ops 2)) 3
          .HCIUARTSETPROTO 5 = some (-5, w1) ∧
      w1.hu.flags_PROTO_SET = false ∧
      (demo_session demo_fail_hup (room_ops 2)).hu.proto = none ∧
      w1.hu.proto = some (queue_proto 5 (-5) true) ∧
      w1.hu.proto ≠ (demo_session demo_fail_hup (room_ops 2)).hu.proto :=
  ⟨_, rfl, rfl, rfl, rfl, fun h => Option.noConfusion h⟩

/-- C3 (amended): on a session with no protocol bound, `HCIUARTSETPROTO`
always returns; when it returns an error the bound flag is clear and the kept
file reference, the pre-bind flags, the transmit state, the held frame, the
channel and the protocol table are what they were.  The error is
`-EPROTONOSUPPORT` for an id that is not registered, and then the whole world
is unchanged; it is the open hook's result when that is not 0, and then the
upper-device reference is unchanged and the protocol reference is left on the
looked-up protocol; otherwise it is `-ENOMEM` or `-ENODEV` from
`hci_uart_register_dev`, and then the protocol's close hook has been called
after its open hook. -/
theorem bind_failure_spec {T P : Type} (env : Env) (w : World T P) (file arg : Nat)
    (hatt : w.tty.disc_data = true) (hset : w.hu.flags_PROTO_SET = false) :
    ∃ r w1, hci_uart_tty_ioctl env w file .HCIUARTSETPROTO arg = some (r, w1) ∧
      (r ≠ 0 →
        w1.hu.flags_PROTO_SET = false ∧ w1.hu.fd = w.hu.fd ∧
        w1.hu.hdev_flags = w.hu.hdev_flags ∧ w1.hu.tx_skb = w.hu.tx_skb ∧
        w1.hu.tx_state_SENDING = w.hu.tx_state_SENDING ∧
        w1.hu.tx_state_TX_WAKEUP = w.hu.tx_state_TX_WAKEUP ∧
        w1.hu.tty = w.hu.tty ∧ w1.tty = w.tty ∧ w1.hup = w.hup ∧
        (hci_uart_get_proto env.HCI_UART_MAX_PROTO w.hup (as_uint (as_int arg)) = none →
          r = -EPROTONOSUPPORT ∧ w1 = w) ∧
        (∀ p, hci_uart_get_proto env.HCI_UART_MAX_PROTO w.hup (as_uint (as_int arg)) = some p →
          w1.hu.proto = some p ∧
          (as_int (p.open_ w.hu.priv).1 ≠ 0 →
            r = as_int (p.open_ w.hu.priv).1 ∧ w1.hu.hdev = w.hu.hdev ∧
            w1.hu.priv = (p.open_ w.hu.priv).2 ∧
            w1.trace = w.trace ++ [Event.proto_open p.id]) ∧
          (as_int (p.open_ w.hu.priv).1 = 0 →
            (r = -ENOMEM ∨ r = -ENODEV) ∧
            w1.hu.priv = p.close (p.open_ w.hu.priv).2 ∧
            ∃ mid, w1.trace
              = w.trace ++ [Event.proto_open p.id] ++ mid ++ [Event.proto_close p.id]))) := by
  obtain ⟨hup, tty, hu, trace⟩ := w
  obtain ⟨htty, hdev, fl, hdf, proto, priv, skb, snd, wk, fd⟩ := hu
  simp only at hatt hset
  subst hset
  cases hg : hci_uart_get_proto env.HCI_UART_MAX_PROTO hup (as_uint (as_int arg)) with
  | none =>
    simp [hci_uart_tty_ioctl, hci_uart_set_proto, hatt, hg, EPROTONOSUPPORT]
    refine ⟨_, _, ⟨rfl, rfl⟩, ?_⟩
    intro _
    simp
  | some p =>
    by_cases hopen : as_int (p.open_ priv).1 = 0
    · cases hr : p.register_hci_dev with
      | false =>
        simp [hci_uart_tty_ioctl, hci_uart_set_proto, hatt, hg, hopen, hr]
        exact ⟨0, _, ⟨rfl, rfl⟩, fun h => absurd rfl h⟩
      | true =>
        cases ha : env.hci_alloc_dev_ok with
        | false =>
          simp [hci_uart_tty_ioctl, hci_uart_set_proto, hci_uart_register_dev, hatt, hg,
            hopen, hr, ha, ENOMEM]
          refine ⟨_, _, ⟨rfl, rfl⟩, ?_⟩
          intro _
          simp
          exact ⟨[Event.hci_alloc_dev], by simp⟩
        | true =>
          by_cases hn : env.hci_register_dev_ret < 0
          · simp [hci_uart_tty_ioctl, hci_uart_set_proto, hci_uart_register_dev,
              hci_free_dev, hatt, hg, hopen, hr, ha, hn, ENODEV]
            refine ⟨_, _, ⟨rfl, rfl⟩, ?_⟩
            intro _
            simp
            exact ⟨[Event.hci_alloc_dev, Event.hci_register_dev, Event.hci_free_dev], by simp⟩
          · simp [hci_uart_tty_ioctl, hci_uart_set_proto, hci_uart_register_dev, hatt, hg,
              hopen, hr, ha, hn]
            exact ⟨0, _, ⟨rfl, rfl⟩, fun h => absurd rfl h⟩
    · simp [hci_uart_tty_ioctl, hci_uart_set_proto, hatt, hg, hopen]
      refine ⟨_, _, ⟨rfl, rfl⟩, ?_⟩
      intro _
      simp

/-- Witness of C3 (amended): the freshly opened example session and the
protocol at id 5 whose open hook fails with -5. -/
theorem bind_failure_spec_witness :
    ∃ r w1, hci_uart_tty_ioctl demo_env (demo_session demo_fail_hup (room_ops 2)) 3
          .HCIUARTSETPROTO 5 = some (r, w1) ∧
      (r ≠ 0 → w1.hu.flags_PROTO_SET = false ∧
        w1.hu.fd = (demo_session demo_fail_hup (room_ops 2)).hu.fd) := by
  obtain ⟨r, w1, h1, h2⟩ :=
    bind_failure_spec demo_env (demo_session demo_fail_hup (room_ops 2)) 3 5 rfl rfl
  exact ⟨r, w1, h1, fun h => ⟨(h2 h).1, (h2 h).2.1⟩⟩

/-! ## TX drain engine: properties -/

section Drain

variable {T P : Type}

/-- A C `int` lies between `-2^31` and `2^31 - 1`. -/
theorem as_int_range (z : Int) : -2147483648 ≤ as_int z ∧ as_int z < 2147483648 := by
  unfold as_int; omega

/-- Converting a non-negative `int` to `unsigned int` keeps its value. -/
theorem as_uint_of_nonneg (x : Int) (h : 0 ≤ x) (h2 : x < 2147483648) :
    as_uint x = x.toNat := by
  unfold as_uint; omega

/-- The bytes accepted over a trace extended by one event. -/
theorem accepted_bytes_snoc (trace : List Event) (e : Event) :
    accepted_bytes (trace ++ [e]) = accepted_bytes trace ++ e.accepted := by
  simp [accepted_bytes]

/-- The transmit counters do not touch the held frame. -/
@[simp]
theorem tx_complete_tx_skb (hu : hci_uart P) (t : Nat) :
    (hci_uart_tx_complete hu t).tx_skb = hu.tx_skb := by
  unfold hci_uart_tx_complete
  cases hu.hdev with
  | none => simp
  | some hdev => simp only []; split_ifs <;> simp

/-- The transmit counters do not touch the protocol's private data. -/
@[simp]
theorem tx_complete_priv (hu : hci_uart P) (t : Nat) :
    (hci_uart_tx_complete hu t).priv = hu.priv := by
  unfold hci_uart_tx_complete
  cases hu.hdev with
  | none => simp
  | some hdev => simp only []; split_ifs <;> simp

/-- The transmit counters do not touch the protocol reference. -/
@[simp]
theorem tx_complete_proto (hu : hci_uart P) (t : Nat) :
    (hci_uart_tx_complete hu t).proto = hu.proto := by
  unfold hci_uart_tx_complete
  cases hu.hdev with
  | none => simp
  | some hdev => simp only []; split_ifs <;> simp

/-- The transmit counters do not touch the wakeup-requested flag. -/
@[simp]
theorem tx_complete_wakeup (hu : hci_uart P) (t : Nat) :
    (hci_uart_tx_complete hu t).tx_state_TX_WAKEUP = hu.tx_state_TX_WAKEUP := by
  unfold hci_uart_tx_complete
  cases hu.hdev with
  | none => simp
  | some hdev => simp only []; split_ifs <;> simp

/-- The transmit counters do not touch the draining flag. -/
@[simp]
theorem tx_complete_sending (hu : hci_uart P) (t : Nat) :
    (hci_uart_tx_complete hu t).tx_state_SENDING = hu.tx_state_SENDING := by
  unfold hci_uart_tx_complete
  cases hu.hdev with
  | none => simp
  | some hdev => simp only []; split_ifs <;> simp

/-- The loop body moves bytes of its frame from "pending" to "accepted":
with no frame held, the total after the body is the total before it with the
frame's bytes put in front of the queue. -/
theorem tx_body_total (q : P → List sk_buff) (w1 : World T P) (skb : sk_buff)
    (hw : WriteInRange w1.tty.ops) (hnone : w1.hu.tx_skb = none)
    (w2 : World T P) (b : Bool) (h : tx_body w1 skb = some (w2, b)) :
    w2.hu.proto = w1.hu.proto ∧ w2.tty.ops = w1.tty.ops ∧
    tx_total q w2
      = accepted_bytes w1.trace ++ (skb.data ++ ((q w1.hu.priv).map sk_buff.data).flatten) := by
  obtain ⟨write, hwr, hrange⟩ := hw
  have hr := hrange w1.tty.driver skb.data
  have hb := as_int_range (write w1.tty.driver skb.data).1
  have hu := as_uint_of_nonneg _ hr.1 hb.2
  have hle : (as_int (write w1.tty.driver skb.data).1).toNat ≤ skb.data.length := by omega
  have hpull : skb_pull skb (as_int (write w1.tty.driver skb.data).1)
      = { skb with data := skb.data.drop (as_int (write w1.tty.driver skb.data).1).toNat } := by
    unfold skb_pull
    rw [hu, if_neg (by simp only [sk_buff.len]; omega)]
  unfold tx_body at h
  cases htty : w1.hu.tty with
  | false => simp [htty] at h
  | true =>
    simp only [htty, hwr, hpull, sk_buff.len, Bool.not_true, Bool.false_eq_true, if_false] at h
    split_ifs at h with hlen
    · -- short write: the rest of the frame is held
      obtain ⟨rfl, rfl⟩ := Prod.mk.inj (Option.some.inj h)
      refine ⟨rfl, rfl, ?_⟩
      simp only [tx_total, pending_bytes, accepted_bytes_snoc, Event.accepted, hr.1, if_true]
      simp only [List.append_assoc]
      rw [← List.append_assoc (List.take _ _), List.take_append_drop]
    · -- all bytes written: the frame is complete
      obtain ⟨rfl, rfl⟩ := Prod.mk.inj (Option.some.inj h)
      have hdrop : skb.data.drop (as_int (write w1.tty.driver skb.data).1).toNat = [] :=
        List.eq_nil_of_length_eq_zero (by simpa using hlen)
      have htake : skb.data.take (as_int (write w1.tty.driver skb.data).1).toNat = skb.data := by
        have := List.take_append_drop (as_int (write w1.tty.driver skb.data).1).toNat skb.data
        rw [hdrop, List.append_nil] at this
        exact this
      refine ⟨by simp, rfl, ?_⟩
      simp only [tx_total, pending_bytes, accepted_bytes_snoc, Event.accepted, hr.1, if_true,
        tx_complete_tx_skb, tx_complete_priv, hnone, htake]
      simp

/-- What `hci_uart_dequeue` gives when the queue of the bound protocol is
FIFO: the held frame, else the head of the queue; no frame is held after it,
and the pending bytes are those of the frame given followed by the queue. -/
theorem dequeue_total (p : hci_uart_proto P) (q : P → List sk_buff) (hf : IsFifo p q)
    (w : World T P) (hp : w.hu.proto = some p)
    (o : Option sk_buff) (w1 : World T P) (h : hci_uart_dequeue w = some (o, w1)) :
    w1.hu.proto = some p ∧ w1.tty = w.tty ∧ w1.hu.tx_skb = none ∧
    accepted_bytes w1.trace = accepted_bytes w.trace ∧
    pending_bytes q w.hu
      = (match o with | none => [] | some skb => skb.data)
        ++ ((q w1.hu.priv).map sk_buff.data).flatten ∧
    (o = none → (q w1.hu.priv) = []) := by
  unfold hci_uart_dequeue at h
  cases hskb : w.hu.tx_skb with
  | some skb =>
    simp only [hskb] at h
    obtain ⟨rfl, rfl⟩ := Prod.mk.inj (Option.some.inj h)
    simp [pending_bytes, hskb, hp]
  | none =>
    simp only [hskb, hp] at h
    obtain ⟨ho, rfl⟩ := Prod.mk.inj (Option.some.inj h)
    cases hq : q w.hu.priv with
    | nil =>
      obtain ⟨d1, d2⟩ := hf.dequeue_nil _ hq
      rw [d1] at ho
      subst ho
      simp [pending_bytes, hskb, hq, d2, accepted_bytes_snoc, Event.accepted]
    | cons x xs =>
      obtain ⟨d1, d2⟩ := hf.dequeue_head _ x xs hq
      rw [d1] at ho
      subst ho
      simp [pending_bytes, hskb, hq, d2, accepted_bytes_snoc, Event.accepted]

/-- One loop iteration keeps the protocol, the driver operations and the
total of accepted and pending bytes. -/
theorem tx_iter_total (p : hci_uart_proto P) (q : P → List sk_buff) (hf : IsFifo p q)
    (w : World T P) (hp : w.hu.proto = some p) (hw : WriteInRange w.tty.ops)
    (w2 : World T P) (b : Bool) (h : tx_iter w = some (w2, b)) :
    w2.hu.proto = some p ∧ w2.tty.ops = w.tty.ops ∧ tx_total q w2 = tx_total q w := by
  unfold tx_iter at h
  cases hdq : hci_uart_dequeue w with
  | none => simp [hdq] at h
  | some r =>
    obtain ⟨o, w1⟩ := r
    obtain ⟨e1, e2, e3, e4, e5, e6⟩ := dequeue_total p q hf w hp o w1 hdq
    simp only [hdq] at h
    cases o with
    | none =>
      simp only at h
      obtain ⟨rfl, rfl⟩ := Prod.mk.inj (Option.some.inj h)
      refine ⟨e1, by rw [e2], ?_⟩
      simp only [tx_total, e4, e5, e6 rfl]
      simp [pending_bytes, e3, e6 rfl]
    | some skb =>
      simp only at h
      obtain ⟨h1, h2, h3⟩ := tx_body_total q w1 skb (e2 ▸ hw) e3 w2 b h
      refine ⟨h1.trans e1, by rw [h2, e2], ?_⟩
      rw [h3]
      simp only [tx_total, e4, e5]

/-- The drain loop keeps the protocol, the driver operations and the total of
accepted and pending bytes. -/
theorem tx_loop_total (p : hci_uart_proto P) (q : P → List sk_buff) (hf : IsFifo p q)
    (fuel : Nat) :
    ∀ (w w2 : World T P), w.hu.proto = some p → WriteInRange w.tty.ops →
      tx_loop fuel w = some w2 →
      w2.hu.proto = some p ∧ w2.tty.ops = w.tty.ops ∧ tx_total q w2 = tx_total q w := by
  induction fuel with
  | zero => intro w w2 _ _ h; simp [tx_loop] at h
  | succ n ih =>
    intro w w2 hp hw h
    unfold tx_loop at h
    cases hit : tx_iter w with
    | none => simp [hit] at h
    | some r =>
      obtain ⟨w1, b⟩ := r
      obtain ⟨i1, i2, i3⟩ := tx_iter_total p q hf w hp hw w1 b hit
      simp only [hit] at h
      cases b with
      | true =>
        simp only at h
        obtain ⟨j1, j2, j3⟩ := ih w1 w2 i1 (i2 ▸ hw) h
        exact ⟨j1, j2.trans i2, j3.trans i3⟩
      | false =>
        simp only at h
        split_ifs at h with hwk
        · obtain ⟨j1, j2, j3⟩ := ih _ w2 (by simpa using i1) (by simpa [i2] using hw) h
          refine ⟨j1, j2.trans i2, j3.trans ?_⟩
          rw [← i3]
          simp [tx_total, pending_bytes]
        · obtain rfl := Option.some.inj h
          refine ⟨i1, i2, ?_⟩
          rw [← i3]
          simp [tx_total, pending_bytes]

/-- A call of `cg2900_hci_uart_tx_wakeup` keeps the protocol, the driver
operations and the total of accepted and pending bytes. -/
theorem tx_wakeup_total (p : hci_uart_proto P) (q : P → List sk_buff) (hf : IsFifo p q)
    (fuel : Nat) (w w2 : World T P) (r : Int) (hp : w.hu.proto = some p)
    (hw : WriteInRange w.tty.ops) (h : cg2900_hci_uart_tx_wakeup fuel w = some (r, w2)) :
    w2.hu.proto = some p ∧ w2.tty.ops = w.tty.ops ∧ tx_total q w2 = tx_total q w := by
  unfold cg2900_hci_uart_tx_wakeup at h
  split_ifs at h with hs
  · obtain ⟨_, rfl⟩ := Prod.mk.inj (Option.some.inj h)
    exact ⟨hp, rfl, by simp [tx_total, pending_bytes]⟩
  · cases hl : tx_loop fuel
        { w with hu.tx_state_SENDING := true, hu.tx_state_TX_WAKEUP := false } with
    | none => simp [hl] at h
    | some w1 =>
      simp only [hl] at h
      obtain ⟨_, rfl⟩ := Prod.mk.inj (Option.some.inj h)
      obtain ⟨j1, j2, j3⟩ := tx_loop_total p q hf fuel _ w1 (by simpa using hp)
        (by simpa using hw) hl
      exact ⟨j1, j2, j3.trans (by simp [tx_total, pending_bytes])⟩

/-- A series of enqueues and drain triggers adds exactly the enqueued bytes
to the total of accepted and pending bytes. -/
theorem run_tx_ops_total (p : hci_uart_proto P) (q : P → List sk_buff) (hf : IsFifo p q)
    (fuel : Nat) (ops : List TxOp) :
    ∀ (w w2 : World T P), w.hu.proto = some p → WriteInRange w.tty.ops →
      run_tx_ops fuel ops w = some w2 →
      tx_total q w2 = tx_total q w ++ enqueued_bytes ops := by
  induction ops with
  | nil =>
    intro w w2 _ _ h
    obtain rfl := Option.some.inj h
    simp [enqueued_bytes]
  | cons op ops ih =>
    intro w w2 hp hw h
    cases op with
    | enqueue skb =>
      simp only [run_tx_ops, proto_enqueue, hp] at h
      rw [ih _ w2 (by simp [hp]) (by simp [hw]) h]
      simp [tx_total, pending_bytes, enqueued_bytes, TxOp.bytes, accepted_bytes_snoc,
        Event.accepted, hf.enqueue_tail]
    | wakeup =>
      simp only [run_tx_ops] at h
      cases hwk : cg2900_hci_uart_tx_wakeup fuel w with
      | none => simp [hwk] at h
      | some r =>
        obtain ⟨r0, w1⟩ := r
        simp only [hwk] at h
        obtain ⟨j1, j2, j3⟩ := tx_wakeup_total p q hf fuel w w1 r0 hp hw hwk
        rw [ih w1 w2 j1 (j2 ▸ hw) h, j3]
        simp [enqueued_bytes, TxOp.bytes]

/-- C1: for a session whose bound protocol has a FIFO outbound queue, on a
channel whose `write` accepts between 0 and the requested number of bytes,
started with nothing pending and nothing accepted, after any sequential series
of frame enqueues and `cg2900_hci_uart_tx_wakeup` calls the bytes accepted by
the channel, followed by the bytes of the held frame and of the queued frames,
are exactly the bytes of the enqueued frames in enqueue order; so the accepted
bytes are a prefix of the enqueued bytes: frames reach the channel in enqueue
order, no byte is accepted twice, and a held frame is completed before any
byte of a later frame. -/
theorem tx_fifo_order (p : hci_uart_proto P) (q : P → List sk_buff) (hf : IsFifo p q)
    (w : World T P) (hp : w.hu.proto = some p) (hw : WriteInRange w.tty.ops)
    (hacc : accepted_bytes w.trace = []) (hheld : w.hu.tx_skb = none)
    (hq : q w.hu.priv = [])
    (fuel : Nat) (ops : List TxOp) (w2 : World T P)
    (hrun : run_tx_ops fuel ops w = some w2) :
    accepted_bytes w2.trace ++ pending_bytes q w2.hu = enqueued_bytes ops ∧
    accepted_bytes w2.trace <+: enqueued_bytes ops := by
  have h := run_tx_ops_total p q hf fuel ops w w2 hp hw hrun
  have h0 : tx_total q w = [] := by
    simp [tx_total, pending_bytes, hacc, hheld, hq]
  rw [h0, List.nil_append] at h
  exact ⟨h, ⟨pending_bytes q w2.hu, h⟩⟩

end Drain

/-- The queue of `queue_proto` is FIFO. -/
theorem queue_proto_fifo (id : Nat) (r : Int) (reg : Bool) :
    IsFifo (queue_proto id r reg) (fun s => s) where
  enqueue_tail := fun _ _ => rfl
  dequeue_nil := fun s hs => by subst hs; exact ⟨rfl, rfl⟩
  dequeue_head := fun s x xs hs => by subst hs; exact ⟨rfl, rfl⟩

/-- The driver `room_ops room` accepts between 0 and the requested number of
bytes. -/
theorem room_ops_in_range (room : Nat) (hroom : room < 2147483648) :
    WriteInRange (room_ops room) := by
  refine ⟨_, rfl, ?_⟩
  intro t data
  simp only [as_int]
  omega

/-- Witness of C1: on the bound example session, whose channel takes two
bytes per write, the scenario `demo_tx_ops` ends with the five enqueued bytes
accepted in order. -/
theorem tx_fifo_order_witness :
    ∃ w2, run_tx_ops 5 demo_tx_ops (demo_bound demo_hup (room_ops 2) 5) = some w2 ∧
      accepted_bytes w2.trace = [1, 2, 3, 4, 5] ∧
      accepted_bytes w2.trace <+: enqueued_bytes demo_tx_ops := by
  refine ⟨_, rfl, by decide, ?_⟩
  exact (tx_fifo_order (queue_proto 5 0 true) (fun s => s) (queue_proto_fifo 5 0 true)
    (demo_bound demo_hup (room_ops 2) 5) rfl (room_ops_in_range 2 (by decide)) (by decide) rfl rfl
    5 demo_tx_ops _ rfl).2

/-! ## TX drain engine: a failing channel write -/

section WriteFailure

variable {T P : Type}

/-- The transmit state flags do not influence `hci_uart_dequeue`. -/
theorem dequeue_flags (w : World T P) (a b : Bool) :
    hci_uart_dequeue { w with hu.tx_state_SENDING := a, hu.tx_state_TX_WAKEUP := b }
      = (hci_uart_dequeue w).map
          (fun r => (r.1, { r.2 with hu.tx_state_SENDING := a, hu.tx_state_TX_WAKEUP := b })) := by
  unfold hci_uart_dequeue
  cases hskb : w.hu.tx_skb with
  | some skb => simp [hskb]
  | none =>
    cases hp : w.hu.proto with
    | none => simp [hskb, hp]
    | some p => simp [hskb, hp]

/-- What `hci_uart_dequeue` leaves untouched. -/
theorem dequeue_frame (w : World T P) (o : Option sk_buff) (wd : World T P)
    (h : hci_uart_dequeue w = some (o, wd)) :
    wd.tty = w.tty ∧ wd.hu.tty = w.hu.tty := by
  unfold hci_uart_dequeue at h
  cases hskb : w.hu.tx_skb with
  | some skb =>
    simp only [hskb] at h
    obtain ⟨_, rfl⟩ := Prod.mk.inj (Option.some.inj h)
    exact ⟨rfl, rfl⟩
  | none =>
    cases hp : w.hu.proto with
    | none => simp [hskb, hp] at h
    | some p =>
      simp only [hskb, hp] at h
      obtain ⟨_, rfl⟩ := Prod.mk.inj (Option.some.inj h)
      exact ⟨rfl, rfl⟩

/-- The loop body on a frame whose `write` fails: `skb_pull` with the negative
value removes nothing, so the whole frame is held and the loop is left. -/
theorem tx_body_failed (w1 : World T P) (skb : sk_buff)
    (write : T → List Nat → Int × Bool × T)
    (htty : w1.hu.tty = true) (hwr : w1.tty.ops.write = some write)
    (hpos : 0 < skb.len) (hlen : skb.len < 2147483648)
    (hneg : as_int (write w1.tty.driver skb.data).1 < 0) :
    ∃ w2, tx_body w1 skb = some (w2, false) ∧ w2.hu.tx_skb = some skb ∧
      w2.trace = w1.trace ++ [Event.tty_write skb.data (as_int (write w1.tty.driver skb.data).1)] ∧
      w2.hu.tx_state_TX_WAKEUP
        = (w1.hu.tx_state_TX_WAKEUP || (write w1.tty.driver skb.data).2.1) ∧
      w2.hu.tx_state_SENDING = w1.hu.tx_state_SENDING := by
  have hb := as_int_range (write w1.tty.driver skb.data).1
  have hpull : skb_pull skb (as_int (write w1.tty.driver skb.data).1) = skb := by
    unfold skb_pull
    rw [if_pos]
    unfold as_uint
    omega
  have hne : skb.len ≠ 0 := Nat.pos_iff_ne_zero.mp hpos
  simp [tx_body, htty, hwr, hpull, hne]

/-- Every return of `cg2900_hci_uart_tx_wakeup` gives 0. -/
theorem tx_wakeup_ret (fuel : Nat) (w w1 : World T P) (r : Int)
    (h : cg2900_hci_uart_tx_wakeup fuel w = some (r, w1)) : r = 0 := by
  unfold cg2900_hci_uart_tx_wakeup at h
  split_ifs at h
  · exact (Prod.mk.inj (Option.some.inj h)).1.symm
  · cases hl : tx_loop fuel
        { w with hu.tx_state_SENDING := true, hu.tx_state_TX_WAKEUP := false } with
    | none => simp [hl] at h
    | some w2 =>
      simp only [hl] at h
      exact (Prod.mk.inj (Option.some.inj h)).1.symm

/-- C10 (as stated, refuted): on the running example session, whose channel
fails every `write` with -5, `hci_uart_send_frame` enqueues the frame, the
drain writes it once and gets -5, and the call returns 0; a later
`cg2900_hci_uart_tx_wakeup` writes the held frame again, gets -5 again and
returns 0 too. -/
theorem tx_write_failure_counterexample :
    ∃ w1, hci_uart_send_frame 3 (demo_running demo_hup (failing_ops (-5)) 5) demo_frame
          = some (0, w1) ∧
      w1.trace.drop (demo_running demo_hup (failing_ops (-5)) 5).trace.length
        = [Event.proto_enqueue 5 demo_frame, Event.proto_dequeue 5,
           Event.tty_write [1, 2, 3] (-5)] ∧
      ∃ w2, cg2900_hci_uart_tx_wakeup 3 w1 = some (0, w2) ∧
        w2.trace.drop w1.trace.length = [Event.tty_write [1, 2, 3] (-5)] :=
  ⟨_, rfl, by decide, _, rfl, by decide⟩

/-- Steps of the drain loop can be taken off the front of a pass: when `n`
steps lead from loop head `w` to loop head `wk`, the loop from `w` with
`n + fuel` units of fuel is the loop from `wk` with `fuel`. -/
theorem tx_advance_loop (n : Nat) :
    ∀ (w wk : World T P), tx_advance n w = some wk →
      ∀ fuel, tx_loop (n + fuel) w = tx_loop fuel wk := by
  induction n with
  | zero =>
    intro w wk h fuel
    obtain rfl := Option.some.inj h
    simp
  | succ n ih =>
    intro w wk h fuel
    rw [Nat.succ_add, tx_loop]
    rw [tx_advance] at h
    cases hit : tx_iter w with
    | none => simp [hit] at h
    | some r =>
      obtain ⟨w1, b⟩ := r
      rw [hit] at h
      cases b with
      | true => exact ih w1 wk h fuel
      | false =>
        by_cases hwk : w1.hu.tx_state_TX_WAKEUP = true
        · simp only [hwk, if_true] at h ⊢
          exact ih _ wk h fuel
        · simp [hwk] at h

/-- The drain loop from a loop head at which the next frame's `write` fails,
with no wakeup requested: one `write`, the whole frame held, the draining flag
cleared. -/
theorem tx_loop_failed (fuel : Nat) (wk : World T P) (skb : sk_buff) (wd : World T P)
    (write : T → List Nat → Int × Bool × T)
    (htty : wk.hu.tty = true) (hwr : wk.tty.ops.write = some write)
    (hnowk : wk.hu.tx_state_TX_WAKEUP = false)
    (hdq : hci_uart_dequeue wk = some (some skb, wd))
    (hpos : 0 < skb.len) (hlen : skb.len < 2147483648)
    (hneg : as_int (write wk.tty.driver skb.data).1 < 0)
    (hwake : (write wk.tty.driver skb.data).2.1 = false) :
    ∃ w2, tx_loop (fuel + 1) wk = some w2 ∧
      w2.hu.tx_skb = some skb ∧ w2.hu.tx_state_SENDING = false ∧
      w2.hu.tx_state_TX_WAKEUP = false ∧ w2.hu.tty = true ∧ w2.tty.ops = wk.tty.ops ∧
      w2.trace
        = wd.trace ++ [Event.tty_write skb.data (as_int (write wk.tty.driver skb.data).1)] := by
  obtain ⟨e1, e2⟩ := dequeue_frame wk (some skb) wd hdq
  have e3 : wd.hu.tx_state_TX_WAKEUP = wk.hu.tx_state_TX_WAKEUP := by
    unfold hci_uart_dequeue at hdq
    cases hskb : wk.hu.tx_skb with
    | some x =>
      simp only [hskb] at hdq
      obtain ⟨_, rfl⟩ := Prod.mk.inj (Option.some.inj hdq)
      rfl
    | none =>
      cases hp : wk.hu.proto with
      | none => simp [hskb, hp] at hdq
      | some p =>
        simp only [hskb, hp] at hdq
        obtain ⟨_, rfl⟩ := Prod.mk.inj (Option.some.inj hdq)
        rfl
  obtain ⟨w2, b1, b2, b3, b4, _⟩ :=
    tx_body_failed wd skb write (e2.trans htty) (by rw [e1]; exact hwr) hpos hlen
      (by rw [e1]; exact hneg)
  have hit : tx_iter wk = some (w2, false) := by
    unfold tx_iter
    rw [hdq]
    exact b1
  have hwk2 : w2.hu.tx_state_TX_WAKEUP = false := by
    rw [b4, e3, hnowk, e1, hwake]
    rfl
  have hprog : w2.hu.tty = true ∧ w2.tty.ops = wk.tty.ops := by
    unfold tx_body at b1
    simp only [e2.trans htty, e1, hwr, Bool.not_true, Bool.false_eq_true, if_false] at b1
    split_ifs at b1
    · obtain ⟨rfl, _⟩ := Prod.mk.inj (Option.some.inj b1)
      exact ⟨rfl, rfl⟩
    · exact absurd (Prod.mk.inj (Option.some.inj b1)).2 (by simp)
  refine ⟨{ w2 with hu.tx_state_SENDING := false }, ?_, b2, rfl, hwk2, hprog.1, hprog.2, ?_⟩
  · rw [tx_loop, hit]
    simp [hwk2]
  · rw [b3, e1]

/-- The loop body records one call, the `write` of its frame. -/
theorem tx_body_trace (w1 : World T P) (skb : sk_buff) (w2 : World T P) (b : Bool)
    (h : tx_body w1 skb = some (w2, b)) :
    ∃ len, w2.trace = w1.trace ++ [Event.tty_write skb.data len] := by
  unfold tx_body at h
  cases htty : w1.hu.tty with
  | false => simp [htty] at h
  | true =>
    cases hwr : w1.tty.ops.write with
    | none => simp [htty, hwr] at h
    | some write =>
      simp only [htty, hwr, Bool.not_true, Bool.false_eq_true, if_false] at h
      split_ifs at h
      · obtain ⟨rfl, _⟩ := Prod.mk.inj (Option.some.inj h)
        exact ⟨_, rfl⟩
      · obtain ⟨rfl, _⟩ := Prod.mk.inj (Option.some.inj h)
        exact ⟨_, rfl⟩

/-- A loop iteration only adds calls at the end of the trace. -/
theorem tx_iter_trace (w w1 : World T P) (b : Bool) (h : tx_iter w = some (w1, b)) :
    ∃ ev, w1.trace = w.trace ++ ev := by
  unfold tx_iter hci_uart_dequeue at h
  cases hskb : w.hu.tx_skb with
  | some skb =>
    simp only [hskb] at h
    obtain ⟨len, hl⟩ := tx_body_trace _ skb w1 b h
    exact ⟨_, hl⟩
  | none =>
    cases hp : w.hu.proto with
    | none => simp [hskb, hp] at h
    | some p =>
      simp only [hskb, hp] at h
      cases hd : (p.dequeue w.hu.priv).1 with
      | none =>
        simp only [hd] at h
        obtain ⟨rfl, _⟩ := Prod.mk.inj (Option.some.inj h)
        exact ⟨_, rfl⟩
      | some x =>
        simp only [hd] at h
        obtain ⟨len, hl⟩ := tx_body_trace _ x w1 b h
        exact ⟨[Event.proto_dequeue p.id] ++ [Event.tty_write x.data len], by
          rw [hl]; simp⟩

/-- The drain loop only adds calls at the end of the trace. -/
theorem tx_loop_trace (fuel : Nat) :
    ∀ (w w2 : World T P), tx_loop fuel w = some w2 → ∃ ev, w2.trace = w.trace ++ ev := by
  induction fuel with
  | zero => intro w w2 h; simp [tx_loop] at h
  | succ n ih =>
    intro w w2 h
    rw [tx_loop] at h
    cases hit : tx_iter w with
    | none => simp [hit] at h
    | some r =>
      obtain ⟨w1, b⟩ := r
      obtain ⟨ev1, h1⟩ := tx_iter_trace w w1 b hit
      rw [hit] at h
      cases b with
      | true =>
        obtain ⟨ev2, h2⟩ := ih w1 w2 h
        exact ⟨ev1 ++ ev2, by rw [h2, h1, List.append_assoc]⟩
      | false =>
        by_cases hwk : w1.hu.tx_state_TX_WAKEUP = true
        · simp only [hwk, if_true] at h
          obtain ⟨ev2, h2⟩ := ih _ w2 h
          exact ⟨ev1 ++ ev2, by rw [h2]; simp [h1]⟩
        · simp only [hwk, Bool.false_eq_true, if_false] at h
          obtain rfl := Option.some.inj h
          exact ⟨ev1, h1⟩

/-- The first loop iteration of a pass that finds a frame held writes that
frame: the iteration returns and records exactly the `write` of the held
frame's bytes. -/
theorem tx_iter_held (w : World T P) (skb : sk_buff) (write : T → List Nat → Int × Bool × T)
    (hheld : w.hu.tx_skb = some skb) (htty : w.hu.tty = true)
    (hwr : w.tty.ops.write = some write) :
    ∃ w1 b, tx_iter w = some (w1, b) ∧
      w1.trace = w.trace ++ [Event.tty_write skb.data (as_int (write w.tty.driver skb.data).1)] := by
  unfold tx_iter hci_uart_dequeue tx_body
  simp only [hheld, htty, hwr, Bool.not_true, Bool.false_eq_true, if_false]
  split_ifs
  · exact ⟨_, _, rfl, rfl⟩
  · exact ⟨_, _, rfl, rfl⟩

/-- C10 (amended): a failing channel write is not surfaced.  Every return of
`cg2900_hci_uart_tx_wakeup` gives 0, and `hci_uart_send_frame` gives 0 unless
it refused the frame before enqueueing it (`-ENODEV`, `-EBUSY`, world
unchanged).  Wherever in a drain pass (after any number `n` of loop steps)
the `write` of a non-empty frame (shorter than `2^31` bytes) returns a
negative value while no wakeup is requested, the pass makes that one `write`
of the frame only, keeps the whole frame as the held frame, clears both
flags and returns 0.  And a drain trigger on a session that holds a frame,
with the draining flag clear, starts by writing the held frame again. -/
theorem tx_write_failure_spec (fuel : Nat) (w : World T P) :
    (∀ r w1, cg2900_hci_uart_tx_wakeup fuel w = some (r, w1) → r = 0) ∧
    (∀ skb r w1, hci_uart_send_frame fuel w skb = some (r, w1) →
      r = 0 ∨ ((r = -ENODEV ∨ r = -EBUSY) ∧ w1 = w)) ∧
    (∀ n wk skb wd write, w.hu.tx_state_SENDING = false →
      tx_advance n { w with hu.tx_state_SENDING := true, hu.tx_state_TX_WAKEUP := false }
        = some wk →
      wk.hu.tty = true → wk.tty.ops.write = some write →
      wk.hu.tx_state_TX_WAKEUP = false →
      hci_uart_dequeue wk = some (some skb, wd) →
      0 < skb.len → skb.len < 2147483648 →
      as_int (write wk.tty.driver skb.data).1 < 0 →
      (write wk.tty.driver skb.data).2.1 = false →
      ∃ w1, cg2900_hci_uart_tx_wakeup (n + (fuel + 1)) w = some (0, w1) ∧
        w1.hu.tx_skb = some skb ∧ w1.hu.tx_state_SENDING = false ∧
        w1.hu.tx_state_TX_WAKEUP = false ∧
        w1.hu.tty = true ∧ w1.tty.ops.write = some write ∧
        w1.trace
          = wd.trace ++ [Event.tty_write skb.data (as_int (write wk.tty.driver skb.data).1)]) ∧
    (∀ skb write, w.hu.tx_state_SENDING = false → w.hu.tx_skb = some skb →
      w.hu.tty = true → w.tty.ops.write = some write →
      (∃ w1 b,
        tx_iter { w with hu.tx_state_SENDING := true, hu.tx_state_TX_WAKEUP := false }
          = some (w1, b) ∧
        w1.trace
          = w.trace ++ [Event.tty_write skb.data (as_int (write w.tty.driver skb.data).1)]) ∧
      (∀ r w2, cg2900_hci_uart_tx_wakeup fuel w = some (r, w2) →
        ∃ rest, w2.trace
          = w.trace
            ++ Event.tty_write skb.data (as_int (write w.tty.driver skb.data).1) :: rest)) := by
  refine ⟨fun r w1 h => tx_wakeup_ret fuel w w1 r h, ?_, ?_, ?_⟩
  · intro skb r w1 h
    unfold hci_uart_send_frame at h
    cases hdev : skb.dev with
    | false =>
      simp only [hdev, Bool.not_false, if_true] at h
      obtain ⟨rfl, rfl⟩ := Prod.mk.inj (Option.some.inj h)
      exact Or.inr ⟨Or.inl rfl, rfl⟩
    | true =>
      simp only [hdev, Bool.not_true, Bool.false_eq_true, if_false] at h
      cases hh : w.hu.hdev with
      | none => simp [hh] at h
      | some hdev0 =>
        simp only [hh] at h
        cases hrun : hdev0.flags_HCI_RUNNING with
        | false =>
          simp only [hrun, Bool.not_false, if_true] at h
          obtain ⟨rfl, rfl⟩ := Prod.mk.inj (Option.some.inj h)
          exact Or.inr ⟨Or.inr rfl, rfl⟩
        | true =>
          simp only [hrun, Bool.not_true, Bool.false_eq_true, if_false] at h
          cases he : proto_enqueue w skb with
          | none => simp [he] at h
          | some we =>
            simp only [he] at h
            cases hwk : hci_uart_tx_wakeup fuel we with
            | none => simp [hwk] at h
            | some rw =>
              simp only [hwk] at h
              exact Or.inl (Prod.mk.inj (Option.some.inj h)).1.symm
  · intro n wk skb wd write hsend hadv htty hwr hnowk hdq hpos hlen hneg hwake
    obtain ⟨w2, l1, l2, l3, l4, l5, l6, l7⟩ :=
      tx_loop_failed fuel wk skb wd write htty hwr hnowk hdq hpos hlen hneg hwake
    refine ⟨w2, ?_, l2, l3, l4, l5, by rw [l6]; exact hwr, l7⟩
    have hl := tx_advance_loop n _ wk hadv (fuel + 1)
    simp [cg2900_hci_uart_tx_wakeup, hsend, hl, l1]
  · intro skb write hsend hheld htty hwr
    obtain ⟨w1, b, hit, htr⟩ :=
      tx_iter_held { w with hu.tx_state_SENDING := true, hu.tx_state_TX_WAKEUP := false }
        skb write hheld htty hwr
    refine ⟨⟨w1, b, hit, htr⟩, ?_⟩
    intro r w2 h
    unfold cg2900_hci_uart_tx_wakeup at h
    simp only [hsend, Bool.false_eq_true, if_false] at h
    cases hl : tx_loop fuel
        { w with hu.tx_state_SENDING := true, hu.tx_state_TX_WAKEUP := false } with
    | none => simp [hl] at h
    | some w3 =>
      simp only [hl] at h
      obtain ⟨_, rfl⟩ := Prod.mk.inj (Option.some.inj h)
      cases fuel with
      | zero => simp [tx_loop] at hl
      | succ m =>
        rw [tx_loop, hit] at hl
        have hext : ∃ ev, w3.trace = w1.trace ++ ev := by
          cases b with
          | true => exact tx_loop_trace m w1 w3 hl
          | false =>
            by_cases hwk : w1.hu.tx_state_TX_WAKEUP = true
            · simp only [hwk, if_true] at hl
              obtain ⟨ev, he⟩ := tx_loop_trace m _ w3 hl
              exact ⟨ev, he⟩
            · simp only [hwk, Bool.false_eq_true, if_false] at hl
              obtain rfl := Option.some.inj hl
              exact ⟨[], by simp⟩
        obtain ⟨ev, he⟩ := hext
        exact ⟨ev, by rw [he, htr]; simp⟩

end WriteFailure

/-- Witness of C10 (amended): the running example session with two frames
queued, on the driver that takes the first `write` whole and fails the second
with -5: after one loop step the second frame's `write` fails; the call
returns 0 with that frame held whole. -/
theorem tx_write_failure_spec_witness :
    ∃ w1, cg2900_hci_uart_tx_wakeup 2 demo_two_frames = some (0, w1) ∧
      w1.hu.tx_skb = some demo_frame2 ∧ w1.hu.tx_state_SENDING = false ∧
      w1.trace.drop demo_two_frames.trace.length
        = [Event.proto_dequeue 5, Event.tty_write [1, 2, 3] 3, Event.proto_dequeue 5,
           Event.tty_write [4, 5] (-5)] := by
  obtain ⟨w1, h1, h2, h3, _, _, _, h7⟩ :=
    (tx_write_failure_spec 0 demo_two_frames).2.2.1 1
      ((tx_advance 1 { demo_two_frames with hu.tx_state_SENDING := true }).get (by decide))
      demo_frame2
      ((hci_uart_dequeue
        ((tx_advance 1 { demo_two_frames with hu.tx_state_SENDING := true }).get
          (by decide))).get (by decide)).2
      (fun t data => (if t < 1 then (data.length : Int) else -5, false, t + 1))
      rfl rfl rfl rfl rfl rfl (by decide) (by decide) (by decide) rfl
  refine ⟨w1, h1, h2, h3, ?_⟩
  rw [h7]
  decide

/-! ## TX drain engine: a trigger while a drain is in progress -/

/-- C15: when `HCI_UART_SENDING` is already set, `cg2900_hci_uart_tx_wakeup`
returns 0 and changes nothing but `HCI_UART_TX_WAKEUP`, which it sets: the
trace gets no `dequeue` and no `write` call, and the held frame, the draining
flag and the device counters are what they were. -/
theorem tx_wakeup_while_sending {T P : Type} (fuel : Nat) (w : World T P)
    (hsend : w.hu.tx_state_SENDING = true) :
    cg2900_hci_uart_tx_wakeup fuel w = some (0, { w with hu.tx_state_TX_WAKEUP := true }) ∧
    ∀ r w1, cg2900_hci_uart_tx_wakeup fuel w = some (r, w1) →
      r = 0 ∧ w1.hu.tx_state_TX_WAKEUP = true ∧ w1.hu.tx_state_SENDING = true ∧
      w1.trace = w.trace ∧ w1.hu.tx_skb = w.hu.tx_skb ∧ w1.hu.hdev = w.hu.hdev ∧
      w1.hu.priv = w.hu.priv ∧ w1.tty = w.tty := by
  have h : cg2900_hci_uart_tx_wakeup fuel w
      = some (0, { w with hu.tx_state_TX_WAKEUP := true }) := by
    simp [cg2900_hci_uart_tx_wakeup, hsend]
  refine ⟨h, ?_⟩
  intro r w1 h1
  rw [h] at h1
  obtain ⟨rfl, rfl⟩ := Prod.mk.inj (Option.some.inj h1)
  simp [hsend]

/-- Witness of C15: the example session with a frame held and the draining
flag set, triggered with no fuel at all. -/
theorem tx_wakeup_while_sending_witness :
    cg2900_hci_uart_tx_wakeup 0
        { demo_held (room_ops 2) with hu.tx_state_SENDING := true }
      = some (0, { demo_held (room_ops 2) with
                    hu.tx_state_SENDING := true, hu.tx_state_TX_WAKEUP := true }) :=
  (tx_wakeup_while_sending 0 { demo_held (room_ops 2) with hu.tx_state_SENDING := true } rfl).1

/-! ## Session close: properties -/

section Close

variable {T P : Type}

/-- What `hci_uart_tty_close` does to an attached session: it returns, the
channel is detached, the bound flag is clear, an upper device is left not
running; the held frame is dropped, by `hci_uart_flush` and ahead of the
protocol's close hook, exactly when the upper device exists and was running,
and is left alone otherwise. -/
theorem tty_close_returns (w : World T P) (hatt : w.tty.disc_data = true)
    (htty : w.hu.tty = true)
    (hproto : w.hu.flags_PROTO_SET = true → w.hu.proto.isSome = true) :
    ∃ w1, hci_uart_tty_close w = some w1 ∧
      w1.tty.disc_data = false ∧ w1.hu.flags_PROTO_SET = false ∧
      (w.hu.hdev.isSome = true → ∃ h, w1.hu.hdev = some h ∧ h.flags_HCI_RUNNING = false) ∧
      ((∃ h, w.hu.hdev = some h ∧ h.flags_HCI_RUNNING = true) →
        w1.hu.tx_skb = none ∧
        w1.trace = w.trace ++ [Event.tty_ldisc_flush, Event.tty_driver_flush_buffer]
          ++ (match w.hu.flags_PROTO_SET, w.hu.proto with
              | true, some p => [Event.proto_flush p.id, Event.proto_close p.id,
                                 Event.hci_unregister_dev, Event.hci_free_dev]
              | _, _ => [])) ∧
      ((∀ h, w.hu.hdev = some h → h.flags_HCI_RUNNING = false) →
        w1.hu.tx_skb = w.hu.tx_skb) := by
  cases hset : w.hu.flags_PROTO_SET with
  | false =>
    cases hh : w.hu.hdev with
    | none =>
      simp [hci_uart_tty_close, hatt, hset, hh]
    | some h =>
      cases hrun : h.flags_HCI_RUNNING with
      | false =>
        simp [hci_uart_tty_close, hci_uart_close, hatt, hset, hh, hrun]
      | true =>
        simp [hci_uart_tty_close, hci_uart_close, hci_uart_flush, tty_ldisc_flush,
          tty_driver_flush_buffer, hatt, htty, hset, hh, hrun]
  | true =>
    cases hp : w.hu.proto with
    | none => simp [hset, hp] at hproto
    | some p =>
      cases hh : w.hu.hdev with
      | none =>
        simp [hci_uart_tty_close, hatt, hset, hh, hp]
      | some h =>
        cases hrun : h.flags_HCI_RUNNING with
        | false =>
          simp [hci_uart_tty_close, hci_uart_close, hci_unregister_dev, hci_free_dev,
            hatt, hset, hh, hrun, hp]
        | true =>
          simp [hci_uart_tty_close, hci_uart_close, hci_uart_flush, tty_ldisc_flush,
            tty_driver_flush_buffer, hci_unregister_dev, hci_free_dev,
            hatt, htty, hset, hh, hrun, hp]

/-- C11 (amended): for every attached session whose upper device exists and is
running, `hci_uart_tty_close` leaves no held output frame: the frame is
dropped by `hci_uart_flush`, before the protocol's close hook is called.
When the session has no upper device, or the device is not running, close
leaves `tx_skb` as it was. -/
theorem tty_close_flush_spec (w : World T P) (hatt : w.tty.disc_data = true)
    (htty : w.hu.tty = true)
    (hproto : w.hu.flags_PROTO_SET = true → w.hu.proto.isSome = true) :
    ∃ w1, hci_uart_tty_close w = some w1 ∧
      ((∃ h, w.hu.hdev = some h ∧ h.flags_HCI_RUNNING = true) →
        w1.hu.tx_skb = none ∧
        w1.trace = w.trace ++ [Event.tty_ldisc_flush, Event.tty_driver_flush_buffer]
          ++ (match w.hu.flags_PROTO_SET, w.hu.proto with
              | true, some p => [Event.proto_flush p.id, Event.proto_close p.id,
                                 Event.hci_unregister_dev, Event.hci_free_dev]
              | _, _ => [])) ∧
      ((∀ h, w.hu.hdev = some h → h.flags_HCI_RUNNING = false) →
        w1.hu.tx_skb = w.hu.tx_skb) := by
  obtain ⟨w1, h1, _, _, _, h5, h6⟩ := tty_close_returns w hatt htty hproto
  exact ⟨w1, h1, h5, h6⟩

/-- C12: after `hci_uart_tty_close` of an attached session every later call
leaves the world, trace of hook calls included, unchanged: every ioctl gives
`-EBADF`, `hci_uart_tty_receive` and `hci_uart_tty_wakeup` return at once, and
a frame submitted to the session's upper device is refused with `-EBUSY`
(with `-ENODEV` when it names no device), the device having been left not
running by close. -/
theorem post_close_rejected (w : World T P) (hatt : w.tty.disc_data = true)
    (htty : w.hu.tty = true)
    (hproto : w.hu.flags_PROTO_SET = true → w.hu.proto.isSome = true) :
    ∃ w1, hci_uart_tty_close w = some w1 ∧
      (∀ env file cmd arg, hci_uart_tty_ioctl env w1 file cmd arg = some (-EBADF, w1)) ∧
      (∀ data count, hci_uart_tty_receive w1 data count = some w1) ∧
      hci_uart_tty_wakeup w1 = some w1 ∧
      (w.hu.hdev.isSome = true → ∀ fuel skb,
        hci_uart_send_frame fuel w1 skb
          = some (if skb.dev then -EBUSY else -ENODEV, w1)) := by
  obtain ⟨w1, h1, h2, _, h4, _, _⟩ := tty_close_returns w hatt htty hproto
  refine ⟨w1, h1, ?_, ?_, ?_, ?_⟩
  · intro env file cmd arg
    simp [hci_uart_tty_ioctl, h2]
  · intro data count
    simp [hci_uart_tty_receive, h2]
  · simp [hci_uart_tty_wakeup, h2]
  · intro hdev fuel skb
    obtain ⟨h, e1, e2⟩ := h4 hdev
    cases hd : skb.dev with
    | false => simp [hci_uart_send_frame, hd]
    | true => simp [hci_uart_send_frame, hd, e1, e2]

end Close

/-- C11 (as stated, refuted): the bound example session whose device the HCI
core has not opened, with a frame held: `hci_uart_tty_close` returns and the
frame is still held. -/
theorem tty_close_held_counterexample :
    ∃ w1, hci_uart_tty_close demo_held_idle = some w1 ∧
      (∃ h, demo_held_idle.hu.hdev = some h ∧ h.flags_HCI_RUNNING = false) ∧
      demo_held_idle.hu.tx_skb = some demo_frame ∧
      w1.hu.tx_skb = some demo_frame ∧ w1.hu.tx_skb ≠ none :=
  ⟨_, rfl, ⟨_, rfl, rfl⟩, rfl, rfl, fun h => Option.noConfusion h⟩

/-- Witness of C11 (amended): the running example session with a frame held. -/
theorem tty_close_flush_spec_witness :
    ∃ w1, hci_uart_tty_close (demo_held (room_ops 2)) = some w1 ∧
      (demo_held (room_ops 2)).hu.tx_skb = some demo_frame ∧ w1.hu.tx_skb = none := by
  obtain ⟨w1, h1, h2, _⟩ :=
    tty_close_flush_spec (demo_held (room_ops 2)) rfl rfl (fun _ => rfl)
  exact ⟨w1, h1, rfl, (h2 ⟨_, rfl, rfl⟩).1⟩

/-- Witness of C12: the running example session, closed; afterwards an ioctl,
a delivery, a transmit-ready callback and a frame submission. -/
theorem post_close_rejected_witness :
    ∃ w1, hci_uart_tty_close (demo_running demo_hup (room_ops 2) 5) = some w1 ∧
      hci_uart_tty_ioctl demo_env w1 3 .HCIUARTGETPROTO 0 = some (-EBADF, w1) ∧
      hci_uart_tty_receive w1 [1, 2] 2 = some w1 ∧
      hci_uart_tty_wakeup w1 = some w1 ∧
      hci_uart_send_frame 3 w1 demo_frame = some (-EBUSY, w1) := by
  obtain ⟨w1, h1, h2, h3, h4, h5⟩ :=
    post_close_rejected (demo_running demo_hup (room_ops 2) 5) rfl rfl (fun _ => rfl)
  exact ⟨w1, h1, h2 _ _ _ _, h3 _ _, h4, h5 rfl 3 demo_frame⟩

/-! ## TX drain engine: termination -/

section Termination

variable {T P : Type}

/-- The transmit counters do not touch the channel reference. -/
@[simp]
theorem tx_complete_tty (hu : hci_uart P) (t : Nat) :
    (hci_uart_tx_complete hu t).tty = hu.tty := by
  unfold hci_uart_tx_complete
  cases hu.hdev with
  | none => simp
  | some hdev => simp only []; split_ifs <;> simp

/-- The loop body returns; it keeps the protocol, its private data, the
driver operations, the draining flag and the `enqueue` calls recorded; a frame
is held afterwards exactly when the loop is left; and the re-entries still
allowed, counting a pending wakeup request as one, do not grow. -/
theorem tx_body_progress (budget : T → Nat) (w1 : World T P) (skb : sk_buff)
    (htty : w1.hu.tty = true) (hb : ReentryBounded w1.tty.ops budget)
    (hnone : w1.hu.tx_skb = none) :
    ∃ w2 b, tx_body w1 skb = some (w2, b) ∧
      w2.hu.proto = w1.hu.proto ∧ w2.hu.tty = true ∧ w2.tty.ops = w1.tty.ops ∧
      w2.hu.priv = w1.hu.priv ∧
      w2.hu.tx_state_SENDING = w1.hu.tx_state_SENDING ∧
      w2.trace.filter Event.is_enqueue = w1.trace.filter Event.is_enqueue ∧
      w2.hu.tx_skb.isSome = !b ∧
      budget w2.tty.driver + (if w2.hu.tx_state_TX_WAKEUP then 1 else 0)
        ≤ budget w1.tty.driver + (if w1.hu.tx_state_TX_WAKEUP then 1 else 0) := by
  obtain ⟨write, hwr, hbound⟩ := hb
  have hbd := hbound w1.tty.driver skb.data
  have hbud : ∀ wk : Bool,
      budget (write w1.tty.driver skb.data).2.2
          + (if (wk || (write w1.tty.driver skb.data).2.1) = true then 1 else 0)
        ≤ budget w1.tty.driver + (if wk = true then 1 else 0) := by
    intro wk
    cases wk <;> cases hre : (write w1.tty.driver skb.data).2.1 <;>
      simp [hre] at hbd ⊢ <;> omega
  by_cases hlen : (skb_pull skb (as_int (write w1.tty.driver skb.data).1)).len ≠ 0
  · simp only [tx_body, htty, hwr, Bool.not_true, Bool.false_eq_true, if_false, if_pos hlen]
    refine ⟨_, _, rfl, rfl, rfl, rfl, rfl, rfl, ?_, rfl, hbud _⟩
    simp [List.filter_append, Event.is_enqueue]
  · simp only [tx_body, htty, hwr, Bool.not_true, Bool.false_eq_true, if_false, if_neg hlen]
    refine ⟨_, _, rfl, by simp, by simp, rfl, by simp, by simp, ?_, by simp [hnone], ?_⟩
    · simp [List.filter_append, Event.is_enqueue]
    · simpa using hbud w1.hu.tx_state_TX_WAKEUP

/-- What `hci_uart_dequeue` does to the frames waiting: it returns, gives the
held frame or else the head of the FIFO queue, leaves no frame held, and the
frame given plus the frames left in the queue are the frames that waited. -/
theorem dequeue_progress (p : hci_uart_proto P) (q : P → List sk_buff) (hf : IsFifo p q)
    (w : World T P) (hp : w.hu.proto = some p) :
    ∃ o wd, hci_uart_dequeue w = some (o, wd) ∧
      wd.hu.proto = some p ∧ wd.tty = w.tty ∧ wd.hu.tty = w.hu.tty ∧ wd.hu.tx_skb = none ∧
      wd.hu.tx_state_SENDING = w.hu.tx_state_SENDING ∧
      wd.hu.tx_state_TX_WAKEUP = w.hu.tx_state_TX_WAKEUP ∧
      wd.trace.filter Event.is_enqueue = w.trace.filter Event.is_enqueue ∧
      tx_frames q w.hu = (if o.isSome then 1 else 0) + (q wd.hu.priv).length := by
  unfold hci_uart_dequeue
  cases hskb : w.hu.tx_skb with
  | some skb =>
    refine ⟨_, _, rfl, hp, rfl, rfl, rfl, rfl, rfl, rfl, ?_⟩
    simp [tx_frames, hskb]
  | none =>
    simp only [hp]
    refine ⟨_, _, rfl, rfl, rfl, rfl, hskb, rfl, rfl, ?_, ?_⟩
    · simp [List.filter_append, Event.is_enqueue]
    · cases hq : q w.hu.priv with
      | nil =>
        obtain ⟨d1, d2⟩ := hf.dequeue_nil _ hq
        simp [tx_frames, hskb, hq, d1, d2]
      | cons x xs =>
        obtain ⟨d1, d2⟩ := hf.dequeue_head _ x xs hq
        simp [tx_frames, hskb, hq, d1, d2]
        omega

/-- One loop iteration returns; it keeps the protocol, the driver operations,
the draining flag and the `enqueue` calls recorded; an iteration that goes on
has taken one waiting frame away, no iteration adds one; and the re-entries
still allowed, counting a pending wakeup request as one, do not grow. -/
theorem tx_iter_progress (p : hci_uart_proto P) (q : P → List sk_buff) (hf : IsFifo p q)
    (budget : T → Nat) (w : World T P) (hp : w.hu.proto = some p) (htty : w.hu.tty = true)
    (hb : ReentryBounded w.tty.ops budget) :
    ∃ w1 b, tx_iter w = some (w1, b) ∧
      w1.hu.proto = some p ∧ w1.hu.tty = true ∧ w1.tty.ops = w.tty.ops ∧
      w1.hu.tx_state_SENDING = w.hu.tx_state_SENDING ∧
      w1.trace.filter Event.is_enqueue = w.trace.filter Event.is_enqueue ∧
      (b = true → tx_frames q w1.hu + 1 ≤ tx_frames q w.hu) ∧
      tx_frames q w1.hu ≤ tx_frames q w.hu ∧
      budget w1.tty.driver + (if w1.hu.tx_state_TX_WAKEUP then 1 else 0)
        ≤ budget w.tty.driver + (if w.hu.tx_state_TX_WAKEUP then 1 else 0) := by
  obtain ⟨o, wd, hdq, e1, e2, e3, e4, e5, e6, e7, e8⟩ := dequeue_progress p q hf w hp
  unfold tx_iter
  rw [hdq]
  cases o with
  | none =>
    refine ⟨wd, false, rfl, e1, e3.trans htty, by rw [e2], e5, e7, by simp, ?_, ?_⟩
    · simp [tx_frames, e4] at e8 ⊢
      omega
    · rw [e2, e6]
  | some skb =>
    obtain ⟨w2, b, h, f1, f2, f3, f4, f5, f6, f7, f8⟩ :=
      tx_body_progress budget wd skb (e3.trans htty) (e2 ▸ hb) e4
    have hfr : tx_frames q w2.hu = (if b then 0 else 1) + (q wd.hu.priv).length := by
      cases b <;> simp [tx_frames, f4, f7]
    refine ⟨w2, b, h, f1.trans e1, f2, by rw [f3, e2], f5.trans e5, f6.trans e7, ?_, ?_, ?_⟩
    · intro hb1
      subst hb1
      simp at e8 hfr
      omega
    · cases b <;> simp at e8 hfr <;> omega
    · rw [e2, e6] at f8
      exact f8

/-- The drain loop returns when its fuel exceeds `tx_measure`: the result is
what its last iteration, which left the loop with no wakeup requested, gave,
with the draining flag cleared; the `enqueue` calls recorded are unchanged. -/
theorem tx_loop_returns (p : hci_uart_proto P) (q : P → List sk_buff) (hf : IsFifo p q)
    (budget : T → Nat) (fuel : Nat) :
    ∀ w : World T P, w.hu.proto = some p → w.hu.tty = true →
      ReentryBounded w.tty.ops budget → tx_measure q budget w < fuel →
      ∃ wl wx, tx_loop fuel w = some { wx with hu.tx_state_SENDING := false } ∧
        tx_iter wl = some (wx, false) ∧ wx.hu.tx_state_TX_WAKEUP = false ∧
        wl.hu.proto = some p ∧ wl.tty.ops = w.tty.ops ∧
        wx.trace.filter Event.is_enqueue = w.trace.filter Event.is_enqueue := by
  induction fuel with
  | zero => intro w _ _ _ h; exact absurd h (Nat.not_lt_zero _)
  | succ n ih =>
    intro w hp htty hb hm
    obtain ⟨w1, b, hit, i1, i2, i3, _, i5, i6, i7, i8⟩ :=
      tx_iter_progress p q hf budget w hp htty hb
    cases b with
    | true =>
      have hstep : tx_loop (n + 1) w = tx_loop n w1 := by
        rw [tx_loop, hit]
      have hm1 : tx_measure q budget w1 < n := by
        have := i6 rfl
        simp only [tx_measure] at hm ⊢
        omega
      obtain ⟨wl, wx, j1, j2, j3, j4, j5, j6⟩ := ih w1 i1 i2 (i3 ▸ hb) hm1
      exact ⟨wl, wx, hstep.trans j1, j2, j3, j4, j5.trans i3, j6.trans i5⟩
    | false =>
      have hstep : tx_loop (n + 1) w
          = if w1.hu.tx_state_TX_WAKEUP then
              tx_loop n { w1 with hu.tx_state_TX_WAKEUP := false }
            else some { w1 with hu.tx_state_SENDING := false } := by
        rw [tx_loop, hit]
      by_cases hwk : w1.hu.tx_state_TX_WAKEUP = true
      · rw [if_pos hwk] at hstep
        have hm1 : tx_measure q budget { w1 with hu.tx_state_TX_WAKEUP := false } < n := by
          simp only [tx_measure, tx_frames, hwk, if_true] at hm i7 i8 ⊢
          simp only [Bool.false_eq_true, if_false]
          omega
        obtain ⟨wl, wx, j1, j2, j3, j4, j5, j6⟩ :=
          ih { w1 with hu.tx_state_TX_WAKEUP := false } i1 i2 (by simpa [i3] using hb) hm1
        exact ⟨wl, wx, hstep.trans j1, j2, j3, j4, j5.trans i3, j6.trans i5⟩
      · rw [if_neg hwk] at hstep
        exact ⟨w, w1, hstep, hit, by simpa using hwk, hp, rfl, i5⟩

/-- The loop body leaves the loop only after a short `write`: on a channel
that accepts between 0 and the requested number of bytes, the last call
recorded is that `write`, it took fewer bytes than the frame had, and the
frame held is the frame without the bytes taken. -/
theorem tx_body_exit (w1 : World T P) (skb : sk_buff) (hw : WriteInRange w1.tty.ops)
    (w2 : World T P) (h : tx_body w1 skb = some (w2, false)) :
    ∃ len : Int, w2.trace.getLast? = some (Event.tty_write skb.data len) ∧
      0 ≤ len ∧ len.toNat < skb.data.length ∧
      w2.hu.tx_skb = some { skb with data := skb.data.drop len.toNat } := by
  obtain ⟨write, hwr, hrange⟩ := hw
  have hr := hrange w1.tty.driver skb.data
  have hb := as_int_range (write w1.tty.driver skb.data).1
  have hu := as_uint_of_nonneg _ hr.1 hb.2
  have hpull : skb_pull skb (as_int (write w1.tty.driver skb.data).1)
      = { skb with data := skb.data.drop (as_int (write w1.tty.driver skb.data).1).toNat } := by
    unfold skb_pull
    rw [hu, if_neg (by simp only [sk_buff.len]; omega)]
  unfold tx_body at h
  cases htty : w1.hu.tty with
  | false => simp [htty] at h
  | true =>
    simp only [htty, hwr, hpull, sk_buff.len, Bool.not_true, Bool.false_eq_true, if_false] at h
    by_cases hlen : (skb.data.drop (as_int (write w1.tty.driver skb.data).1).toNat).length ≠ 0
    · rw [if_pos hlen] at h
      obtain ⟨rfl, _⟩ := Prod.mk.inj (Option.some.inj h)
      refine ⟨as_int (write w1.tty.driver skb.data).1, by simp, hr.1, ?_, rfl⟩
      simp only [List.length_drop] at hlen
      omega
    · rw [if_neg hlen] at h
      exact absurd (Prod.mk.inj (Option.some.inj h)).2 (by simp)

/-- An iteration that leaves the loop ends in one of the two ways of
`DrainExit`. -/
theorem tx_iter_exit (p : hci_uart_proto P) (w : World T P) (hp : w.hu.proto = some p)
    (hw : WriteInRange w.tty.ops) (w1 : World T P) (h : tx_iter w = some (w1, false)) :
    DrainExit p w1 := by
  unfold tx_iter hci_uart_dequeue at h
  cases hskb : w.hu.tx_skb with
  | some skb =>
    simp only [hskb] at h
    obtain ⟨len, a1, a2, a3, a4⟩ := tx_body_exit _ skb (by simpa using hw) w1 h
    exact Or.inl ⟨skb, len, a1, a2, a3, a4⟩
  | none =>
    simp only [hskb, hp] at h
    cases hd : (p.dequeue w.hu.priv).1 with
    | none =>
      simp only [hd] at h
      obtain ⟨rfl, _⟩ := Prod.mk.inj (Option.some.inj h)
      exact Or.inr ⟨w.hu.priv, by simp, hd, rfl, rfl⟩
    | some x =>
      simp only [hd] at h
      obtain ⟨len, a1, a2, a3, a4⟩ := tx_body_exit _ x (by simpa using hw) w1 h
      exact Or.inl ⟨x, len, a1, a2, a3, a4⟩

/-- A call of `cg2900_hci_uart_tx_wakeup` returns 0 when its fuel exceeds the
number of waiting frames plus twice the re-entries the driver may still make;
it records no `enqueue` call; when it claimed the draining flag, both flags
are clear on return and the result is what the last loop iteration gave. -/
theorem tx_wakeup_returns (p : hci_uart_proto P) (q : P → List sk_buff) (hf : IsFifo p q)
    (budget : T → Nat) (w : World T P) (hp : w.hu.proto = some p) (htty : w.hu.tty = true)
    (hb : ReentryBounded w.tty.ops budget) (fuel : Nat)
    (hfuel : tx_frames q w.hu + 2 * budget w.tty.driver < fuel) :
    ∃ w2, cg2900_hci_uart_tx_wakeup fuel w = some (0, w2) ∧
      w2.trace.filter Event.is_enqueue = w.trace.filter Event.is_enqueue ∧
      (w.hu.tx_state_SENDING = false →
        w2.hu.tx_state_SENDING = false ∧ w2.hu.tx_state_TX_WAKEUP = false ∧
        ∃ wl wx, tx_iter wl = some (wx, false) ∧
          w2 = { wx with hu.tx_state_SENDING := false } ∧
          wl.hu.proto = some p ∧ wl.tty.ops = w.tty.ops) := by
  by_cases hs : w.hu.tx_state_SENDING = true
  · refine ⟨{ w with hu.tx_state_TX_WAKEUP := true }, ?_, rfl, ?_⟩
    · simp [cg2900_hci_uart_tx_wakeup, hs]
    · intro h
      rw [hs] at h
      exact absurd h (by simp)
  · have hm : tx_measure q budget
        { w with hu.tx_state_SENDING := true, hu.tx_state_TX_WAKEUP := false } < fuel := by
      simp only [tx_measure, tx_frames, Bool.false_eq_true, if_false] at hfuel ⊢
      omega
    obtain ⟨wl, wx, j1, j2, j3, j4, j5, j6⟩ :=
      tx_loop_returns p q hf budget fuel
        { w with hu.tx_state_SENDING := true, hu.tx_state_TX_WAKEUP := false }
        hp htty hb hm
    refine ⟨{ wx with hu.tx_state_SENDING := false }, ?_, j6, ?_⟩
    · simp [cg2900_hci_uart_tx_wakeup, hs, j1]
    · intro _
      exact ⟨rfl, j3, wl, wx, j2, rfl, j4, j5⟩

/-- C16: for a session with the draining flag clear, a bound protocol whose
queue is FIFO (a finite list of frames), and a channel whose `write` accepts
between 0 and the requested number of bytes and re-enters the drain at most
`budget` more times, `cg2900_hci_uart_tx_wakeup` returns (for every fuel above
the number of waiting frames plus twice the budget), with both the draining
flag and the wakeup-requested flag clear, and it ends in one of two ways:
its last call was a short `write` and the held frame is the unwritten rest of
the frame written, or its last call was the protocol's `dequeue`, which gave
no frame, and no frame is held. -/
theorem tx_wakeup_terminates (p : hci_uart_proto P) (q : P → List sk_buff) (hf : IsFifo p q)
    (budget : T → Nat) (w : World T P) (hp : w.hu.proto = some p) (htty : w.hu.tty = true)
    (hsend : w.hu.tx_state_SENDING = false) (hw : WriteInRange w.tty.ops)
    (hb : ReentryBounded w.tty.ops budget) (fuel : Nat)
    (hfuel : tx_frames q w.hu + 2 * budget w.tty.driver < fuel) :
    ∃ w2, cg2900_hci_uart_tx_wakeup fuel w = some (0, w2) ∧
      w2.hu.tx_state_SENDING = false ∧ w2.hu.tx_state_TX_WAKEUP = false ∧
      DrainExit p w2 := by
  obtain ⟨w2, h1, _, h3⟩ := tx_wakeup_returns p q hf budget w hp htty hb fuel hfuel
  obtain ⟨a1, a2, wl, wx, a3, rfl, a5, a6⟩ := h3 hsend
  refine ⟨_, h1, a1, a2, ?_⟩
  have hexit := tx_iter_exit p wl a5 (a6 ▸ hw) wx a3
  simpa [DrainExit] using hexit

/-- C13: `hci_uart_send_frame` gives `-ENODEV` for a frame that names no
device and `-EBUSY` for a frame whose device is not running, leaving the
world, trace included, unchanged: no `enqueue` call, no drain.  Otherwise,
with a bound FIFO protocol and a driver that re-enters at most `budget` more
times, it calls the protocol's `enqueue` once with that frame, makes one call
of the drain trigger on the result and returns 0; the drain adds no `enqueue`
call. -/
theorem send_frame_spec (fuel : Nat) (w : World T P) (skb : sk_buff) :
    (skb.dev = false → hci_uart_send_frame fuel w skb = some (-ENODEV, w)) ∧
    (∀ h, skb.dev = true → w.hu.hdev = some h → h.flags_HCI_RUNNING = false →
      hci_uart_send_frame fuel w skb = some (-EBUSY, w)) ∧
    (∀ h p q budget, skb.dev = true → w.hu.hdev = some h → h.flags_HCI_RUNNING = true →
      w.hu.proto = some p → IsFifo p q → w.hu.tty = true →
      ReentryBounded w.tty.ops budget →
      tx_frames q w.hu + 1 + 2 * budget w.tty.driver < fuel →
      ∃ w1 w2, proto_enqueue w skb = some w1 ∧
        w1.trace = w.trace ++ [Event.proto_enqueue p.id skb] ∧
        w1.hu.priv = p.enqueue w.hu.priv skb ∧
        hci_uart_tx_wakeup fuel w1 = some (0, w2) ∧
        hci_uart_send_frame fuel w skb = some (0, w2) ∧
        w2.trace.filter Event.is_enqueue
          = w.trace.filter Event.is_enqueue ++ [Event.proto_enqueue p.id skb]) := by
  refine ⟨?_, ?_, ?_⟩
  · intro hd
    simp [hci_uart_send_frame, hd]
  · intro h hd hh hrun
    simp [hci_uart_send_frame, hd, hh, hrun]
  · intro h p q budget hd hh hrun hp hf htty hb hfuel
    have hex : ∃ we, proto_enqueue w skb = some we ∧
        we.trace = w.trace ++ [Event.proto_enqueue p.id skb] ∧
        we.hu.priv = p.enqueue w.hu.priv skb ∧ we.hu.proto = some p ∧
        we.hu.tty = true ∧ we.tty = w.tty ∧ we.hu.tx_skb = w.hu.tx_skb := by
      simp [proto_enqueue, hp, htty]
    obtain ⟨we, he, e1, e2, e3, e4, e5, e6⟩ := hex
    have hfr : tx_frames q we.hu = tx_frames q w.hu + 1 := by
      simp [tx_frames, e2, e6, hf.enqueue_tail]
      omega
    obtain ⟨w2, k1, k2, _⟩ :=
      tx_wakeup_returns p q hf budget we e3 e4 (e5 ▸ hb) fuel
        (by rw [hfr, e5]; exact hfuel)
    refine ⟨we, w2, he, e1, e2, k1, ?_, ?_⟩
    · simp [hci_uart_send_frame, hd, hh, hrun, he, hci_uart_tx_wakeup, k1]
    · rw [k2, e1]
      simp [List.filter_append, Event.is_enqueue]

end Termination

/-- The driver `room_ops room` never re-enters the drain. -/
theorem room_ops_no_reentry (room : Nat) : ReentryBounded (room_ops room) (fun _ => 0) :=
  ⟨_, rfl, fun _ _ => by simp⟩

/-- The counter of `reentrant_ops` bounds its re-entries. -/
theorem reentrant_ops_bounded : ReentryBounded reentrant_ops (fun t => t) := by
  refine ⟨_, rfl, ?_⟩
  intro t data
  by_cases h : 0 < t
  · simp [h]
    omega
  · simp [h]

/-- The driver `reentrant_ops` accepts between 0 and the requested number of
bytes. -/
theorem reentrant_ops_in_range : WriteInRange reentrant_ops := by
  refine ⟨_, rfl, ?_⟩
  intro t data
  simp only [as_int]
  omega

/-- Witness of C16: the example session holding a three-byte frame, on the
driver that takes one byte per `write` and re-enters twice: the call returns
with both flags clear, the frame written out and the queue found empty. -/
theorem tx_wakeup_terminates_witness :
    ∃ w2, cg2900_hci_uart_tx_wakeup 6 demo_reentrant = some (0, w2) ∧
      w2.hu.tx_state_SENDING = false ∧ w2.hu.tx_state_TX_WAKEUP = false ∧
      DrainExit (queue_proto 5 0 true) w2 ∧
      accepted_bytes (w2.trace.drop demo_reentrant.trace.length) = [1, 2, 3] := by
  obtain ⟨w2, h1, h2, h3, h4⟩ :=
    tx_wakeup_terminates (queue_proto 5 0 true) (fun s => s) (queue_proto_fifo 5 0 true)
      (fun t => t) demo_reentrant rfl rfl rfl reentrant_ops_in_range reentrant_ops_bounded
      6 (by decide)
  have hrun : cg2900_hci_uart_tx_wakeup 6 demo_reentrant
      = some (0, (cg2900_hci_uart_tx_wakeup 6 demo_reentrant).get (by decide) |>.2) := by
    rfl
  refine ⟨w2, h1, h2, h3, h4, ?_⟩
  rw [hrun] at h1
  obtain ⟨_, rfl⟩ := Prod.mk.inj (Option.some.inj h1)
  decide

/-- Witness of C13: a frame for no device, a frame for the device before it
runs, and a frame for the running device of the example session. -/
theorem send_frame_spec_witness :
    hci_uart_send_frame 2 (demo_running demo_hup (room_ops 2) 5)
        { demo_frame with dev := false }
      = some (-ENODEV, demo_running demo_hup (room_ops 2) 5) ∧
    hci_uart_send_frame 2 (demo_bound demo_hup (room_ops 2) 5) demo_frame
      = some (-EBUSY, demo_bound demo_hup (room_ops 2) 5) ∧
    ∃ w2, hci_uart_send_frame 2 (demo_running demo_hup (room_ops 2) 5) demo_frame
        = some (0, w2) ∧
      w2.trace.filter Event.is_enqueue = [Event.proto_enqueue 5 demo_frame] := by
  refine ⟨(send_frame_spec 2 _ _).1 rfl, (send_frame_spec 2 _ _).2.1 _ rfl rfl rfl, ?_⟩
  obtain ⟨_, w2, _, _, _, _, h5, h6⟩ :=
    (send_frame_spec 2 (demo_running demo_hup (room_ops 2) 5) demo_frame).2.2
      _ (queue_proto 5 0 true) (fun s => s) (fun _ => 0) rfl rfl rfl rfl
      (queue_proto_fifo 5 0 true) rfl (room_ops_no_reentry 2) (by decide)
  exact ⟨w2, h5, h6⟩

/-! ## Concurrent triggers of the drain: mutual exclusion -/

section Concurrent

variable {T P : Type}

/-- The holder after a log extended by one action. -/
theorem log_owner_snoc (l : List (Nat × DrainAct)) (e : Nat × DrainAct) :
    ∀ o, log_owner o (l ++ [e]) = (log_owner o l).bind (fun o1 => log_step o1 e) := by
  induction l with
  | nil =>
    intro o
    cases h : log_step o e <;> simp [log_owner, h]
  | cons x xs ih =>
    intro o
    simp only [List.cons_append, log_owner]
    cases log_step o x with
    | none => rfl
    | some o1 => exact ih o1

/-- A write by the holder is allowed and keeps the holder. -/
theorem log_owner_write (l : List (Nat × DrainAct)) (i : Nat) (o : Option Nat)
    (hlog : log_owner none l = some o) (hoi : o = some i) :
    log_owner none (l ++ [(i, DrainAct.write)]) = some o := by
  rw [log_owner_snoc, hlog, hoi]
  simp [log_step]

/-- The call `hci_uart_dequeue` does not touch `HCI_UART_SENDING`. -/
theorem dequeue_sending (w : World T P) (o : Option sk_buff) (w1 : World T P)
    (h : hci_uart_dequeue w = some (o, w1)) :
    w1.hu.tx_state_SENDING = w.hu.tx_state_SENDING := by
  unfold hci_uart_dequeue at h
  cases hskb : w.hu.tx_skb with
  | some skb =>
    simp only [hskb] at h
    obtain ⟨_, rfl⟩ := Prod.mk.inj (Option.some.inj h)
    rfl
  | none =>
    cases hp : w.hu.proto with
    | none => simp [hskb, hp] at h
    | some p =>
      simp only [hskb, hp] at h
      obtain ⟨_, rfl⟩ := Prod.mk.inj (Option.some.inj h)
      rfl

/-- The loop body does not touch `HCI_UART_SENDING`. -/
theorem tx_body_sending (w : World T P) (skb : sk_buff) (w1 : World T P) (b : Bool)
    (h : tx_body w skb = some (w1, b)) :
    w1.hu.tx_state_SENDING = w.hu.tx_state_SENDING := by
  unfold tx_body at h
  cases htty : w.hu.tty with
  | false => simp [htty] at h
  | true =>
    cases hwr : w.tty.ops.write with
    | none => simp [htty, hwr] at h
    | some write =>
      simp only [htty, hwr, Bool.not_true, Bool.false_eq_true, if_false] at h
      split_ifs at h
      · obtain ⟨rfl, _⟩ := Prod.mk.inj (Option.some.inj h)
        rfl
      · obtain ⟨rfl, _⟩ := Prod.mk.inj (Option.some.inj h)
        simp

/-- Moving an execution between two program points that are both inside, or
both outside, the claimed region keeps "the holder is the one execution in
the claimed region". -/
theorem critical_keep (pc : Nat → DrainPc) (o : Option Nat) (i : Nat) (x : DrainPc)
    (hx : x.critical = (pc i).critical)
    (h : ∀ j, (pc j).critical = true ↔ o = some j) :
    ∀ j, (set_pc pc i x j).critical = true ↔ o = some j := by
  intro j
  unfold set_pc
  by_cases hj : j = i
  · subst hj
    simp only [if_true, hx]
    exact h j
  · simp only [hj, if_false]
    exact h j

/-- Every step of every execution keeps the invariant. -/
theorem drain_step_inv (i : Nat) (s s1 : Interleaving T P) (hinv : DrainInv s)
    (h : drain_step i s = some s1) : DrainInv s1 := by
  obtain ⟨o, hlog, hcrit, hs⟩ := hinv
  unfold drain_step at h
  cases hpc : s.pc i with
  | entry =>
    simp only [hpc] at h
    have hni : o ≠ some i := fun ho => by
      have := (hcrit i).mpr ho
      rw [hpc] at this
      exact absurd this (by decide)
    by_cases hsend : s.w.hu.tx_state_SENDING = true
    · simp only [hsend, if_true] at h
      obtain rfl := Option.some.inj h
      exact ⟨o, hlog, critical_keep s.pc o i .busy (by rw [hpc]; rfl) hcrit, hs⟩
    · simp only [hsend, Bool.false_eq_true, if_false] at h
      obtain rfl := Option.some.inj h
      have ho : o = none := by
        cases o with
        | none => rfl
        | some k => exact absurd (hs.mpr rfl) hsend
      subst ho
      refine ⟨some i, ?_, ?_, by simp⟩
      · rw [log_owner_snoc, hlog]
        rfl
      · intro j
        simp only [set_pc]
        by_cases hj : j = i
        · subst hj
          simp [DrainPc.critical]
        · have hcj := hcrit j
          simp only [hj, if_false]
          constructor
          · intro hc
            exact absurd (hcj.mp hc) (by simp)
          · intro hc
            exact absurd (Option.some.inj hc).symm hj
  | busy =>
    simp only [hpc] at h
    obtain rfl := Option.some.inj h
    exact ⟨o, hlog, critical_keep s.pc o i .done (by rw [hpc]; rfl) hcrit, hs⟩
  | restart =>
    simp only [hpc] at h
    obtain rfl := Option.some.inj h
    exact ⟨o, hlog, critical_keep s.pc o i .loop_head (by rw [hpc]; rfl) hcrit, hs⟩
  | loop_head =>
    simp only [hpc] at h
    cases hdq : hci_uart_dequeue s.w with
    | none => simp [hdq] at h
    | some r =>
      obtain ⟨fr, w1⟩ := r
      have hsame := dequeue_sending s.w fr w1 hdq
      simp only [hdq] at h
      cases fr with
      | none =>
        obtain rfl := Option.some.inj h
        exact ⟨o, hlog, critical_keep s.pc o i .check (by rw [hpc]; rfl) hcrit,
          by simpa [hsame] using hs⟩
      | some skb =>
        obtain rfl := Option.some.inj h
        exact ⟨o, hlog, critical_keep s.pc o i (.body skb) (by rw [hpc]; rfl) hcrit,
          by simpa [hsame] using hs⟩
  | body skb =>
    simp only [hpc] at h
    have hoi : o = some i := (hcrit i).mp (by rw [hpc]; rfl)
    have hlog1 := log_owner_write s.log i o hlog hoi
    cases hb : tx_body s.w skb with
    | none => simp [hb] at h
    | some r =>
      obtain ⟨w1, b⟩ := r
      have hsame := tx_body_sending s.w skb w1 b hb
      cases b with
      | true =>
        simp only [hb] at h
        obtain rfl := Option.some.inj h
        exact ⟨o, hlog1, critical_keep s.pc o i .loop_head (by rw [hpc]; rfl) hcrit,
          by simpa [hsame] using hs⟩
      | false =>
        simp only [hb] at h
        obtain rfl := Option.some.inj h
        exact ⟨o, hlog1, critical_keep s.pc o i .check (by rw [hpc]; rfl) hcrit,
          by simpa [hsame] using hs⟩
  | check =>
    simp only [hpc] at h
    by_cases hwk : s.w.hu.tx_state_TX_WAKEUP = true
    · simp only [hwk, if_true] at h
      obtain rfl := Option.some.inj h
      exact ⟨o, hlog, critical_keep s.pc o i .restart (by rw [hpc]; rfl) hcrit, hs⟩
    · simp only [hwk, Bool.false_eq_true, if_false] at h
      obtain rfl := Option.some.inj h
      exact ⟨o, hlog, critical_keep s.pc o i .release (by rw [hpc]; rfl) hcrit, hs⟩
  | release =>
    simp only [hpc] at h
    obtain rfl := Option.some.inj h
    have hoi : o = some i := (hcrit i).mp (by rw [hpc]; rfl)
    subst hoi
    refine ⟨none, ?_, ?_, by simp⟩
    · rw [log_owner_snoc, hlog]
      simp [log_step]
    · intro j
      simp only [set_pc]
      by_cases hj : j = i
      · subst hj
        simp [DrainPc.critical]
      · have hcj := hcrit j
        simp only [hj, if_false]
        constructor
        · intro hc
          exact absurd (Option.some.inj (hcj.mp hc)).symm hj
        · intro hc
          exact absurd hc (by simp)
  | done =>
    simp [hpc] at h

/-- Every interleaving keeps the invariant. -/
theorem drain_run_inv (sched : List Nat) :
    ∀ s : Interleaving T P, DrainInv s → DrainInv (drain_run sched s) := by
  induction sched with
  | nil => intro s h; exact h
  | cons i rest ih =>
    intro s h
    simp only [drain_run]
    cases hstep : drain_step i s with
    | none => simpa [hstep] using ih s h
    | some s1 => simpa [hstep] using ih s1 (drain_step_inv i s s1 h hstep)

/-- C14: for any number of concurrent triggers of `cg2900_hci_uart_tx_wakeup`
on a session whose draining flag is clear, in every interleaving of their
atomic steps at most one execution is between claiming and releasing
`HCI_UART_SENDING`; and the log of claims, channel writes and releases passes
`log_owner`: every claim is made while no execution holds the flag and every
channel write is made by the execution that holds it, so the writes of two
executions are never interleaved within a drain pass. -/
theorem drain_mutual_exclusion (w : World T P) (hsend : w.hu.tx_state_SENDING = false)
    (sched : List Nat) :
    (∀ i j, ((drain_run sched (drain_init w)).pc i).critical = true →
      ((drain_run sched (drain_init w)).pc j).critical = true → i = j) ∧
    (∃ o, log_owner none (drain_run sched (drain_init w)).log = some o ∧
      (∀ i, ((drain_run sched (drain_init w)).pc i).critical = true ↔ o = some i) ∧
      ((drain_run sched (drain_init w)).w.hu.tx_state_SENDING = true ↔ o.isSome = true)) := by
  have h0 : DrainInv (drain_init w) := by
    refine ⟨none, rfl, ?_, ?_⟩
    · intro i
      simp [drain_init, DrainPc.critical]
    · simp [drain_init, hsend]
  obtain ⟨o, h1, h2, h3⟩ := drain_run_inv sched (drain_init w) h0
  refine ⟨?_, o, h1, h2, h3⟩
  intro i j hi hj
  have a := (h2 i).mp hi
  have b := (h2 j).mp hj
  rw [a] at b
  exact Option.some.inj b

end Concurrent

/-- Witness of C14: two triggers on the example session that holds a frame.
Execution 0 claims the flag; execution 1 finds it set, requests a wakeup and
returns while execution 0 drains; execution 0 writes twice, restarting once,
and releases the flag.  All channel writes are execution 0's. -/
theorem drain_mutual_exclusion_witness :
    (demo_held (room_ops 2)).hu.tx_state_SENDING = false ∧
    (drain_run demo_schedule (drain_init (demo_held (room_ops 2)))).log
      = [(0, DrainAct.claim), (0, DrainAct.write), (0, DrainAct.write), (0, DrainAct.release)] ∧
    (drain_run demo_schedule (drain_init (demo_held (room_ops 2)))).pc 1 = DrainPc.done ∧
    (∀ i j, ((drain_run demo_schedule (drain_init (demo_held (room_ops 2)))).pc i).critical = true →
      ((drain_run demo_schedule (drain_init (demo_held (room_ops 2)))).pc j).critical = true →
      i = j) :=
  ⟨rfl, by decide, by decide,
   (drain_mutual_exclusion (demo_held (room_ops 2)) rfl demo_schedule).1⟩

end CG2900
